import Mathlib

/-!
# Flow-lines generator: shallow embedding and verification

This file embeds the core of the flow-lines pen-plotter art generator
(`packages/core/src`: `flow-field.ts`, `flow-lines.ts`, `svg.ts`) into Lean 4
and proves properties of the embedded program.

Modelling conventions:
* JavaScript numbers are idealised as elements of a `LinearOrderedField K`
  (instantiated at `ℚ` for concrete evaluation and at `ℝ` where real square
  roots are needed).  `Math.floor`/`Math.ceil` become `Int.floor`/`Int.ceil`.
* The transcendental / irrational `Math` primitives (`sqrt`, `cos`, `sin`,
  `pow`) are abstracted into a `Prims` structure: every theorem quantifies
  over them unless it needs their real meaning.
* The noise engine (`noise.ts`) is not among the sources; it is modelled from
  the spec as an abstract deterministic sampler bundle keyed by seed (see
  `Noise` below).
* Loop counters, list lengths and iteration caps are `Nat`; seeds and the
  linear-congruential RNG state are `Int` (the spec's 32-bit integers).
* Mutable arrays become lists with explicit state passing; JS `Map` buckets
  become filtered views of the insertion list (observationally equal since
  buckets are only appended to and scanned).
-/

set_option linter.unusedSectionVars false
set_option linter.unusedVariables false

namespace Flow

/-- A 2D point (also used as a direction vector), `interface Point` /
`Vector2D` of the source. -/
structure Point (K : Type) where
  x : K
  y : K
deriving DecidableEq, Repr

/-- `interface FlowLine { points: Point[] }`. -/
structure FlowLine (K : Type) where
  points : List (Point K)
deriving DecidableEq, Repr

/-- `interface Attractor` of `flow-field.ts`. -/
structure Attractor (K : Type) where
  x : K
  y : K
  radius : K
  strength : K
deriving DecidableEq, Repr

/-- `interface DensityPoint` of `flow-lines.ts`. -/
structure DensityPoint (K : Type) where
  x : K
  y : K
  radius : K
  strength : K
deriving DecidableEq, Repr

/-- Modelled from the spec: the noise engine of `noise.ts` (the file is not
among the sources; §4.1 of the spec describes `sample2D` and the derived
samplers `fbm`, `curl`, `ridged`, `warpedFbm`).  Each sampler is an arbitrary
deterministic function; the whole bundle is produced from a seed by
`Prims.createNoise`, so determinism in the seed is preserved by construction.
Argument order follows the call sites in the sources:
`fbm x y octaves persistence lacunarity`, etc. -/
structure Noise (K : Type) where
  noise2D : K → K → K
  fbm : K → K → Nat → K → K → K
  curl2D : K → K → Nat → K → K → K × K
  ridged : K → K → Nat → K → K → K
  warpedFbm : K → K → Nat → K → K → K → K

/-- Modelled from the spec: the ambient numeric primitives of the JavaScript
host (`Math.sqrt/cos/sin/pow`, number-to-string conversion) plus the seeded
noise-engine factory `createNoise` of the absent `noise.ts`.  All embedded
code is parameterised by one such bundle, so both generation runs of a
determinism claim see the same primitives. -/
structure Prims (K : Type) where
  sqrt : K → K
  cos : K → K
  sin : K → K
  pow : K → K → K
  createNoise : Int → Noise K
  numToString : K → String

/-- The double-precision value of `Math.PI` (exact binary fraction). -/
def jsPI (K : Type) [LinearOrderedField K] : K :=
  (884279719003555 : K) / 281474976710656

/-- `Math.sign` restricted to field inputs. -/
def jsSign {K : Type} [LinearOrderedField K] (v : K) : K :=
  if 0 < v then 1 else if v < 0 then -1 else 0

/-- One step of the seeded LCG used throughout `flow-lines.ts`:
`s = (s * 1103515245 + 12345) & 0x7fffffff` (bit-masking idealised as
`emod 2^31`, which agrees with JS `ToInt32` + mask on the mathematical
integer value). -/
def lcgNext (s : Int) : Int :=
  (s * 1103515245 + 12345) % 2147483648

/-- `random()` of the source closures: advance the LCG state and scale by
`0x7fffffff`.  Returns the sample and the new state. -/
def randStep {K : Type} [LinearOrderedField K] (s : Int) : K × Int :=
  let t := lcgNext s
  ((t : K) / 2147483647, t)

/-- `type FieldMode` of `flow-field.ts`. -/
inductive FieldMode where
  | normal
  | curl
  | spiral
  | turbulent
  | ridged
  | warped
deriving DecidableEq, Repr

section FieldDefs

variable {K : Type} [LinearOrderedField K] [FloorRing K]

/-- `interface FlowFieldOptions` (defaults resolved in the constructor). -/
structure FlowFieldOptions (K : Type) where
  width : K
  height : K
  resolution : K
  seed : Int
  noiseScale : Option K := none
  octaves : Option Nat := none
  persistence : Option K := none
  lacunarity : Option K := none
  fieldMode : Option FieldMode := none
  spiralStrength : Option K := none
  warpStrength : Option K := none

/-- `class FlowField`: the constructed state.  The precomputed per-cell grid
is kept as a function of (row, col); the source materialises the same values
in an array and only ever reads it back clamped in range. -/
structure FlowField (K : Type) where
  width : K
  height : K
  resolution : K
  cols : Nat
  rows : Nat
  field : Nat → Nat → Point K

/-- `FlowField.generateField`, one cell: the `switch (this.fieldMode)` of the
source computing the raw vector, followed by normalisation. -/
def fieldCell (prims : Prims K) (noise : Noise K) (width height resolution : K)
    (noiseScale : K) (octaves : Nat) (persistence lacunarity : K)
    (fieldMode : FieldMode) (spiralStrength warpStrength : K)
    (row col : Nat) : Point K :=
  let centerX := width / 2
  let centerY := height / 2
  let x : K := (col : K) * resolution
  let y : K := (row : K) * resolution
  let nx := x * noiseScale
  let ny := y * noiseScale
  let raw : K × K :=
    match fieldMode with
    | FieldMode.curl =>
        noise.curl2D nx ny octaves persistence lacunarity
    | FieldMode.spiral =>
        let c := noise.curl2D nx ny octaves persistence lacunarity
        let dx := centerX - x
        let dy := centerY - y
        let dist := prims.sqrt (dx * dx + dy * dy)
        if 0 < dist then
          (c.1 + dx / dist * spiralStrength, c.2 + dy / dist * spiralStrength)
        else
          c
    | FieldMode.turbulent =>
        noise.curl2D (nx * 2) (ny * 2) (octaves + 2) (persistence * (12 / 10))
          lacunarity
    | FieldMode.ridged =>
        let angle := noise.ridged nx ny octaves persistence lacunarity *
          jsPI K * 2
        (prims.cos angle, prims.sin angle)
    | FieldMode.warped =>
        let angle := noise.warpedFbm nx ny octaves persistence lacunarity
          warpStrength * jsPI K * 2
        (prims.cos angle, prims.sin angle)
    | FieldMode.normal =>
        let noiseValue := noise.fbm nx ny octaves persistence lacunarity
        let angle := noiseValue * jsPI K * 2
        (prims.cos angle, prims.sin angle)
  let len := prims.sqrt (raw.1 * raw.1 + raw.2 * raw.2)
  if 0 < len then ⟨raw.1 / len, raw.2 / len⟩ else ⟨raw.1, raw.2⟩

/-- The `FlowField` constructor: resolve option defaults, derive `cols`/`rows`
and build the cell grid. -/
def mkFlowField (prims : Prims K) (o : FlowFieldOptions K) : FlowField K :=
  let noiseScale := o.noiseScale.getD (5 / 1000)
  let octaves := o.octaves.getD 4
  let persistence := o.persistence.getD (1 / 2)
  let lacunarity := o.lacunarity.getD 2
  let fieldMode := o.fieldMode.getD FieldMode.normal
  let spiralStrength := o.spiralStrength.getD (1 / 2)
  let warpStrength := o.warpStrength.getD (1 / 2)
  let noise := prims.createNoise o.seed
  { width := o.width
    height := o.height
    resolution := o.resolution
    cols := (⌈o.width / o.resolution⌉).toNat
    rows := (⌈o.height / o.resolution⌉).toNat
    field := fun row col =>
      fieldCell prims noise o.width o.height o.resolution noiseScale octaves
        persistence lacunarity fieldMode spiralStrength warpStrength row col }

/-- `FlowField.getBaseVector`: nearest-cell lookup with clamping. -/
def FlowField.getBaseVector (f : FlowField K) (x y : K) : Point K :=
  let col := ⌊x / f.resolution⌋
  let row := ⌊y / f.resolution⌋
  let clampedCol := max 0 (min col ((f.cols : Int) - 1))
  let clampedRow := max 0 (min row ((f.rows : Int) - 1))
  f.field clampedRow.toNat clampedCol.toNat

/-- The body of the attractor loop of `FlowField.getVector`: the influence a
single attractor adds to the accumulating vector. -/
def attractorContribution (prims : Prims K) (x y : K) (a : Attractor K) :
    Point K :=
  let dx := a.x - x
  let dy := a.y - y
  let distSq := dx * dx + dy * dy
  let dist := prims.sqrt distSq
  if dist < a.radius ∧ 0 < dist then
    let falloff := 1 - dist / a.radius
    let influence := falloff * falloff * a.strength
    ⟨dx / dist * influence, dy / dist * influence⟩
  else
    ⟨0, 0⟩

/-- The final renormalisation of `FlowField.getVector` (`if (len > 0)`). -/
def renormalize (prims : Prims K) (v : Point K) : Point K :=
  let len := prims.sqrt (v.x * v.x + v.y * v.y)
  if 0 < len then ⟨v.x / len, v.y / len⟩ else v

/-- `FlowField.getVector(x, y, attractors?)`: base lookup, additive attractor
influences, renormalisation (the latter two only when an attractor list is
present and non-empty, as in the source guard `attractors &&
attractors.length > 0`). -/
def FlowField.getVector (f : FlowField K) (prims : Prims K) (x y : K)
    (attractors : Option (List (Attractor K))) : Point K :=
  let baseVec := f.getBaseVector x y
  match attractors with
  | none => baseVec
  | some l =>
    if l.isEmpty then baseVec
    else
      let summed := l.foldl
        (fun (v : Point K) a =>
          let c := attractorContribution prims x y a
          ⟨v.x + c.x, v.y + c.y⟩)
        baseVec
      renormalize prims summed

/-- `FlowField.isInBounds(x, y, margin)`. -/
def FlowField.isInBounds (f : FlowField K) (x y : K) (margin : K) : Bool :=
  decide (margin ≤ x ∧ x < f.width - margin ∧
    margin ≤ y ∧ y < f.height - margin)

end FieldDefs

section GridDefs

variable {K : Type} [LinearOrderedField K] [FloorRing K]

/-- `class SpatialGrid`: the cell size together with the full insertion list.
The source's `Map<string, Point[]>` keyed by `"cx,cy"` is recovered by
`SpatialGrid.bucket`. -/
structure SpatialGrid (K : Type) where
  cellSize : K
  pts : List (Point K)

/-- `new SpatialGrid(cellSize)`. -/
def SpatialGrid.create (cellSize : K) : SpatialGrid K :=
  ⟨cellSize, []⟩

/-- `SpatialGrid.getKey`, as the integer cell pair (the string key of the
source is injective on these pairs). -/
def cellKey (cellSize x y : K) : Int × Int :=
  (⌊x / cellSize⌋, ⌊y / cellSize⌋)

/-- `SpatialGrid.add(point)`. -/
def SpatialGrid.add (g : SpatialGrid K) (p : Point K) : SpatialGrid K :=
  ⟨g.cellSize, g.pts ++ [p]⟩

/-- `SpatialGrid.addLine(points)`. -/
def SpatialGrid.addLine (g : SpatialGrid K) (ps : List (Point K)) :
    SpatialGrid K :=
  ps.foldl SpatialGrid.add g

/-- The bucket the source stores under key `k`: the inserted points whose
cell is `k`, in insertion order. -/
def SpatialGrid.bucket (g : SpatialGrid K) (k : Int × Int) : List (Point K) :=
  g.pts.filter (fun p => decide (cellKey g.cellSize p.x p.y = k))

/-- `SpatialGrid.hasNearby(x, y, distance)`: scan the `(2r+1)²` buckets with
`r = ceil(distance / cellSize)` for a point with squared distance below
`distance²`. -/
def SpatialGrid.hasNearby (g : SpatialGrid K) (x y distance : K) : Bool :=
  let cx := ⌊x / g.cellSize⌋
  let cy := ⌊y / g.cellSize⌋
  let searchRadius : Nat := (⌈distance / g.cellSize⌉).toNat
  (List.range (2 * searchRadius + 1)).any fun i =>
    (List.range (2 * searchRadius + 1)).any fun j =>
      (g.bucket (cx + (i : Int) - searchRadius,
        cy + (j : Int) - searchRadius)).any fun p =>
        decide ((p.x - x) ^ 2 + (p.y - y) ^ 2 < distance * distance)

end GridDefs

section C7

variable {K : Type} [LinearOrderedField K] [FloorRing K]

/-- **C7.** For every `FlowField` and all `x`, `y` and `margin`,
`isInBounds(x, y, margin)` returns `true` iff
`margin ≤ x < width − margin` and `margin ≤ y < height − margin`
(closed lower bounds, strict upper bounds). -/
theorem isInBounds_iff (f : FlowField K) (x y margin : K) :
    f.isInBounds x y margin = true ↔
      (margin ≤ x ∧ x < f.width - margin ∧
        margin ≤ y ∧ y < f.height - margin) := by
  simp [FlowField.isInBounds]

end C7

section C4

variable {K : Type} [LinearOrderedField K] [FloorRing K]

/-- If two coordinates are within `d` of each other, their grid cells (at a
positive cell size) differ by at most `ceil(d / cellSize)`. -/
lemma floor_div_near {a b d cs : K} (hcs : 0 < cs) (h : |a - b| < d) :
    ⌊b / cs⌋ - ⌈d / cs⌉ ≤ ⌊a / cs⌋ ∧ ⌊a / cs⌋ ≤ ⌊b / cs⌋ + ⌈d / cs⌉ := by
  have hab : a - b < d := lt_of_abs_lt h
  have hba : b - a < d := lt_of_abs_lt (abs_sub_comm a b ▸ h)
  constructor
  · have h1 : b / cs - (⌈d / cs⌉ : K) ≤ a / cs := by
      have hd : d / cs ≤ (⌈d / cs⌉ : K) := Int.le_ceil _
      have : b / cs - d / cs ≤ a / cs := by
        rw [div_sub_div_same]
        exact div_le_div_of_nonneg_right (by linarith) (le_of_lt hcs)
      linarith
    calc ⌊b / cs⌋ - ⌈d / cs⌉ = ⌊b / cs - (⌈d / cs⌉ : K)⌋ := by
          rw [Int.floor_sub_int]
      _ ≤ ⌊a / cs⌋ := Int.floor_le_floor h1
  · have h1 : a / cs ≤ b / cs + (⌈d / cs⌉ : K) := by
      have hd : d / cs ≤ (⌈d / cs⌉ : K) := Int.le_ceil _
      have : a / cs - b / cs ≤ d / cs := by
        rw [div_sub_div_same]
        exact div_le_div_of_nonneg_right (le_of_lt hab) (le_of_lt hcs)
      linarith
    calc ⌊a / cs⌋ ≤ ⌊b / cs + (⌈d / cs⌉ : K)⌋ := Int.floor_le_floor h1
      _ = ⌊b / cs⌋ + ⌈d / cs⌉ := Int.floor_add_int _ _

/-- **C4.** For every `SpatialGrid` with positive cell size and every query
with non-negative distance, `hasNearby(x, y, distance)` returns `true` iff
some inserted point has squared Euclidean distance to `(x, y)` strictly below
`distance²`: the `ceil(distance/cellSize)`-cell bucket scan misses no
qualifying point and reports no false positive. -/
theorem hasNearby_iff (g : SpatialGrid K) (x y distance : K)
    (hcs : 0 < g.cellSize) (hd : 0 ≤ distance) :
    g.hasNearby x y distance = true ↔
      ∃ p ∈ g.pts, (p.x - x) ^ 2 + (p.y - y) ^ 2 < distance * distance := by
  unfold SpatialGrid.hasNearby
  simp only [List.any_eq_true, List.mem_range, decide_eq_true_eq]
  constructor
  · rintro ⟨i, _, j, _, p, hp, hlt⟩
    refine ⟨p, ?_, hlt⟩
    exact (List.mem_filter.mp hp).1
  · rintro ⟨p, hp, hlt⟩
    have hx2 : (p.x - x) ^ 2 < distance ^ 2 := by
      nlinarith [sq_nonneg (p.y - y)]
    have hy2 : (p.y - y) ^ 2 < distance ^ 2 := by
      nlinarith [sq_nonneg (p.x - x)]
    have hxa : |p.x - x| < distance := by
      nlinarith [sq_abs (p.x - x), abs_nonneg (p.x - x)]
    have hya : |p.y - y| < distance := by
      nlinarith [sq_abs (p.y - y), abs_nonneg (p.y - y)]
    have hxcell := floor_div_near hcs hxa
    have hycell := floor_div_near hcs hya
    set r : Int := ⌈distance / g.cellSize⌉ with hr
    have hr0 : 0 ≤ r := by
      have : (0 : K) ≤ distance / g.cellSize := div_nonneg hd (le_of_lt hcs)
      exact Int.ceil_nonneg this
    have hrnat : ((r.toNat : Int)) = r := Int.toNat_of_nonneg hr0
    set cx : Int := ⌊x / g.cellSize⌋
    set cy : Int := ⌊y / g.cellSize⌋
    set px : Int := ⌊p.x / g.cellSize⌋
    set py : Int := ⌊p.y / g.cellSize⌋
    have hix : px - cx + r ∈ Finset.Icc (0 : Int) (2 * r) := by
      simp only [Finset.mem_Icc]
      omega
    have hiy : py - cy + r ∈ Finset.Icc (0 : Int) (2 * r) := by
      simp only [Finset.mem_Icc]
      omega
    refine ⟨(px - cx + r).toNat, ?_, (py - cy + r).toNat, ?_, p, ?_, hlt⟩
    · simp only [Finset.mem_Icc] at hix
      omega
    · simp only [Finset.mem_Icc] at hiy
      omega
    · apply List.mem_filter.mpr
      refine ⟨hp, ?_⟩
      simp only [decide_eq_true_eq, cellKey, Prod.mk.injEq]
      simp only [Finset.mem_Icc] at hix hiy
      have hpx : ⌊p.x / g.cellSize⌋ = px := rfl
      have hpy : ⌊p.y / g.cellSize⌋ = py := rfl
      rw [hpx, hpy]
      omega

/-- Concrete instantiation of `hasNearby_iff` with its hypotheses
discharged: a point at the origin is found from a query at `(1/2, 0)` with
distance `1` on a unit grid. -/
theorem hasNearby_iff_witness :
    (((SpatialGrid.create (1 : ℚ)).add ⟨0, 0⟩).hasNearby (1/2) 0 1 = true) ∧
      (0 : ℚ) < 1 := by
  refine ⟨?_, by norm_num⟩
  refine (hasNearby_iff _ _ _ _
    (by norm_num [SpatialGrid.create, SpatialGrid.add]) (by norm_num)).mpr ?_
  refine ⟨⟨0, 0⟩, ?_, by norm_num⟩
  simp [SpatialGrid.create, SpatialGrid.add]

end C4

section SvgDefs

variable {K : Type} [LinearOrderedField K] [FloorRing K]

/-- `perpendicularDistance(point, lineStart, lineEnd)` of `svg.ts`: distance
from a point to the segment between `lineStart` and `lineEnd` (projection
parameter clamped to `[0, 1]`). -/
def perpendicularDistance (prims : Prims K) (point lineStart lineEnd : Point K) :
    K :=
  let dx := lineEnd.x - lineStart.x
  let dy := lineEnd.y - lineStart.y
  let lengthSq := dx * dx + dy * dy
  if lengthSq = 0 then
    prims.sqrt ((point.x - lineStart.x) ^ 2 + (point.y - lineStart.y) ^ 2)
  else
    let t := max 0 (min 1
      (((point.x - lineStart.x) * dx + (point.y - lineStart.y) * dy) / lengthSq))
    let projX := lineStart.x + t * dx
    let projY := lineStart.y + t * dy
    prims.sqrt ((point.x - projX) ^ 2 + (point.y - projY) ^ 2)

/-- The scan `for (i = 1; i < points.length - 1; i++)` of `optimizePoints`
tracking the running maximum distance and the index of its first achiever:
`ds` is the remaining interior segment, `i` the source index of its head,
and the accumulator holds `(maxDist, maxIndex)`. -/
def findMaxAux (pd : Point K → K) : List (Point K) → Nat → K × Nat → K × Nat
  | [], _, acc => acc
  | p :: rest, i, acc =>
    let d := pd p
    if acc.1 < d then findMaxAux pd rest (i + 1) (d, i)
    else findMaxAux pd rest (i + 1) acc

instance : Inhabited (Point K) := ⟨⟨0, 0⟩⟩

/-- `optimizePoints(points, epsilon)` (Ramer–Douglas–Peucker), with an
explicit recursion-depth budget.  The source recursion strictly shrinks the
list whenever `1 ≤ maxIndex ≤ length − 2` — which holds for every reachable
call with `epsilon ≥ 0` — so a budget of `points.length` mirrors the source
exactly there (`optF_fuel_irrelevant`); the budget only guards the
`epsilon < 0`, collinear corner in which the source recursion does not
terminate at all. -/
def optimizePointsF (prims : Prims K) :
    Nat → List (Point K) → K → List (Point K)
  | 0, points, _ => points
  | fuel + 1, points, epsilon =>
    if points.length < 3 then points
    else
      let s := points.headI
      let e := points.getLastI
      let pd := fun p => perpendicularDistance prims p s e
      let m := findMaxAux pd (points.drop 1).dropLast 1 (0, 0)
      if epsilon < m.1 then
        let left := optimizePointsF prims fuel (points.take (m.2 + 1)) epsilon
        let right := optimizePointsF prims fuel (points.drop m.2) epsilon
        left.dropLast ++ right
      else
        [s, e]

/-- `optimizePoints` entry point. -/
def optimizePoints (prims : Prims K) (points : List (Point K)) (epsilon : K) :
    List (Point K) :=
  optimizePointsF prims points.length points epsilon

end SvgDefs

section C6Proof

variable {K : Type} [LinearOrderedField K] [FloorRing K]

/-- Complete characterisation of the running-maximum scan: the result bounds
every scanned value and the initial accumulator, and either the accumulator
was never beaten, or the result is the value at the first index where the
scan's running maximum was last raised (strictly above everything before
it). -/
lemma findMaxAux_spec (pd : Point K → K) (ds : List (Point K)) (i : Nat)
    (md₀ : K) (mi₀ : Nat) :
    (∀ j (hj : j < ds.length),
        pd (ds.get ⟨j, hj⟩) ≤ (findMaxAux pd ds i (md₀, mi₀)).1) ∧
      md₀ ≤ (findMaxAux pd ds i (md₀, mi₀)).1 ∧
      (findMaxAux pd ds i (md₀, mi₀) = (md₀, mi₀) ∨
        ∃ j, ∃ hj : j < ds.length,
          (findMaxAux pd ds i (md₀, mi₀)).2 = i + j ∧
          (findMaxAux pd ds i (md₀, mi₀)).1 = pd (ds.get ⟨j, hj⟩) ∧
          md₀ < pd (ds.get ⟨j, hj⟩) ∧
          ∀ k (hk : k < j),
            pd (ds.get ⟨k, by omega⟩) < pd (ds.get ⟨j, hj⟩)) := by
  induction ds generalizing i md₀ mi₀ with
  | nil =>
    refine ⟨fun j hj => absurd hj (by simp), le_refl _, Or.inl rfl⟩
  | cons p rest ih =>
    by_cases hlt : md₀ < pd p
    · have hrec : findMaxAux pd (p :: rest) i (md₀, mi₀) =
        findMaxAux pd rest (i + 1) (pd p, i) := by
        simp [findMaxAux, hlt]
      obtain ⟨h1, h2, h3⟩ := ih (i + 1) (pd p) i
      rw [hrec]
      refine ⟨?_, le_of_lt (lt_of_lt_of_le hlt h2), ?_⟩
      · intro j hj
        match j with
        | 0 => simpa using h2
        | j' + 1 => simpa using h1 j' (by simpa using hj)
      · rcases h3 with h | ⟨j', hj', he2, he1, hgt, hstrict⟩
        · right
          refine ⟨0, ?_, ?_, ?_, ?_, ?_⟩
          · simp
          · rw [h]
            simp
          · rw [h]
            simp
          · simpa using hlt
          · intro k hk
            omega
        · right
          refine ⟨j' + 1, ?_, ?_, ?_, ?_, ?_⟩
          · simpa using hj'
          · rw [he2]
            omega
          · rw [he1]
            simp
          · simp only [List.get_cons_succ]
            exact lt_trans hlt hgt
          · intro k hk
            match k with
            | 0 =>
              exact hgt
            | k' + 1 =>
              simp only [List.get_cons_succ]
              exact hstrict k' (by omega)
    · have hrec : findMaxAux pd (p :: rest) i (md₀, mi₀) =
        findMaxAux pd rest (i + 1) (md₀, mi₀) := by
        simp [findMaxAux, hlt]
      obtain ⟨h1, h2, h3⟩ := ih (i + 1) md₀ mi₀
      rw [hrec]
      refine ⟨?_, h2, ?_⟩
      · intro j hj
        match j with
        | 0 =>
          exact le_trans (not_lt.mp hlt) h2
        | j' + 1 => simpa using h1 j' (by simpa using hj)
      · rcases h3 with h | ⟨j', hj', he2, he1, hgt, hstrict⟩
        · exact Or.inl h
        · right
          refine ⟨j' + 1, ?_, ?_, ?_, ?_, ?_⟩
          · simpa using hj'
          · rw [he2]
            omega
          · rw [he1]
            simp
          · simpa using hgt
          · intro k hk
            match k with
            | 0 =>
              exact lt_of_le_of_lt (not_lt.mp hlt) hgt
            | k' + 1 =>
              simp only [List.get_cons_succ]
              exact hstrict k' (by omega)

/-- The scan is determined by a witness: if index `j` holds a positive value
`M` that strictly dominates everything before it and weakly dominates
everything else, the scan started at `(0, 0)` ends at exactly `(M, 1 + j)`. -/
lemma findMaxAux_determined (pd : Point K → K) (ds : List (Point K))
    (M : K) (j : Nat) (hj : j < ds.length)
    (hM : pd (ds.get ⟨j, hj⟩) = M) (hMpos : 0 < M)
    (hbefore : ∀ k (hk : k < j), pd (ds.get ⟨k, by omega⟩) < M)
    (hall : ∀ k (hk : k < ds.length), pd (ds.get ⟨k, hk⟩) ≤ M) :
    findMaxAux pd ds 1 (0, 0) = (M, 1 + j) := by
  obtain ⟨h1, h2, h3⟩ := findMaxAux_spec pd ds 1 0 0
  rcases h3 with h | ⟨j', hj', he2, he1, hgt, hstrict⟩
  · exfalso
    have := h1 j hj
    rw [h] at this
    simp only at this
    rw [hM] at this
    exact absurd (lt_of_lt_of_le hMpos this) (lt_irrefl _)
  · have hle : (findMaxAux pd ds 1 (0, 0)).1 ≤ M := he1 ▸ hall j' hj'
    have hge : M ≤ (findMaxAux pd ds 1 (0, 0)).1 := hM ▸ h1 j hj
    have heq : (findMaxAux pd ds 1 (0, 0)).1 = M := le_antisymm hle hge
    have hj'eq : j' = j := by
      rcases lt_trichotomy j' j with hc | hc | hc
      · exfalso
        have hb := hbefore j' hc
        rw [← he1, heq] at hb
        exact absurd hb (lt_irrefl _)
      · exact hc
      · exfalso
        have hs := hstrict j hc
        rw [← he1, heq] at hs
        rw [hM] at hs
        exact absurd hs (lt_irrefl _)
    have : (findMaxAux pd ds 1 (0, 0)).2 = 1 + j := by
      rw [he2, hj'eq]
    exact Prod.ext heq this

/-- `A <+ B ++ [b]` forces `A.dropLast <+ B`: removing the final element of a
subsequence of `B ++ [b]` lands inside `B`. -/
lemma dropLast_sublist_of_sublist_concat {α : Type} {A B : List α} {b : α}
    (h : List.Sublist A (B ++ [b])) : List.Sublist A.dropLast B := by
  rcases List.sublist_append_iff.mp h with ⟨l₁, l₂, rfl, h₁, h₂⟩
  rcases List.sublist_singleton.mp h₂ with rfl | rfl
  · exact List.Sublist.trans (List.dropLast_sublist _) (by simpa using h₁)
  · simpa [List.dropLast_concat] using h₁

/-- `headI` of a non-empty list as a `get`. -/
lemma headI_eq_get {α : Type} [Inhabited α] (l : List α) (h : l ≠ []) :
    l.headI = l.get ⟨0, List.length_pos.mpr h⟩ := by
  cases l with
  | nil => exact absurd rfl h
  | cons a t => rfl

/-- `getLastI` of a non-empty list as a `get`. -/
lemma getLastI_eq_get {α : Type} [Inhabited α] (l : List α) (h : l ≠ []) :
    l.getLastI = l.get ⟨l.length - 1,
      Nat.sub_lt (List.length_pos.mpr h) Nat.one_pos⟩ := by
  rw [List.getLastI_eq_getLast?, List.getLast?_eq_getLast l h]
  simp [List.getLast_eq_getElem]

/-- Taking at least one element keeps the head. -/
lemma headI_take {α : Type} [Inhabited α] (l : List α) (n : Nat)
    (hn : 1 ≤ n) (hl : l ≠ []) : (l.take n).headI = l.headI := by
  cases l with
  | nil => exact absurd rfl hl
  | cons a t =>
    cases n with
    | zero => omega
    | succ m => rfl

/-- The last element of `take (n+1)` is the element at index `n`. -/
lemma getLastI_take_succ {α : Type} [Inhabited α] (l : List α) (n : Nat)
    (hn : n < l.length) : (l.take (n + 1)).getLastI = l.get ⟨n, hn⟩ := by
  have hne : l.take (n + 1) ≠ [] := by
    have : (l.take (n + 1)).length = n + 1 := by
      simp [List.length_take]
      omega
    intro hcon
    rw [hcon] at this
    simp at this
  rw [getLastI_eq_get _ hne]
  have hlen : (l.take (n + 1)).length = n + 1 := by
    simp [List.length_take]
    omega
  simp only [List.get_eq_getElem, List.getElem_take]
  congr 1
  omega

/-- The head of `drop n` is the element at index `n`. -/
lemma headI_drop {α : Type} [Inhabited α] (l : List α) (n : Nat)
    (hn : n < l.length) : (l.drop n).headI = l.get ⟨n, hn⟩ := by
  have hne : l.drop n ≠ [] := by
    intro hcon
    have := congrArg List.length hcon
    simp [List.length_drop] at this
    omega
  rw [headI_eq_get _ hne]
  simp only [List.get_eq_getElem, List.getElem_drop]
  congr 1

/-- Dropping fewer than all elements keeps the last. -/
lemma getLastI_drop {α : Type} [Inhabited α] (l : List α) (n : Nat)
    (hn : n < l.length) : (l.drop n).getLastI = l.getLastI := by
  have hne : l.drop n ≠ [] := by
    intro hcon
    have := congrArg List.length hcon
    simp [List.length_drop] at this
    omega
  have hnel : l ≠ [] := by
    intro hcon
    rw [hcon] at hn
    simp at hn
  rw [getLastI_eq_get _ hne, getLastI_eq_get _ hnel]
  simp only [List.get_eq_getElem, List.getElem_drop, List.length_drop]
  congr 1
  omega

/-- Head of an append with non-empty left part. -/
lemma headI_append {α : Type} [Inhabited α] {A B : List α} (h : A ≠ []) :
    (A ++ B).headI = A.headI := by
  cases A with
  | nil => exact absurd rfl h
  | cons a t => rfl

/-- Last of an append with non-empty right part. -/
lemma getLastI_append {α : Type} [Inhabited α] {A B : List α} (h : B ≠ []) :
    (A ++ B).getLastI = B.getLastI := by
  rw [List.getLastI_eq_getLast?, List.getLastI_eq_getLast?,
    List.getLast?_append_of_ne_nil _ h]

/-- Unfolding equation for the recursive case of `optimizePointsF`. -/
lemma optF_succ (prims : Prims K) (f : Nat) (P : List (Point K)) (ε : K) :
    optimizePointsF prims (f + 1) P ε =
      if P.length < 3 then P
      else if ε < (findMaxAux
          (fun p => perpendicularDistance prims p P.headI P.getLastI)
          (P.drop 1).dropLast 1 (0, 0)).1 then
        (optimizePointsF prims f
          (P.take ((findMaxAux
            (fun p => perpendicularDistance prims p P.headI P.getLastI)
            (P.drop 1).dropLast 1 (0, 0)).2 + 1)) ε).dropLast ++
          optimizePointsF prims f
            (P.drop (findMaxAux
              (fun p => perpendicularDistance prims p P.headI P.getLastI)
              (P.drop 1).dropLast 1 (0, 0)).2) ε
      else [P.headI, P.getLastI] := rfl

/-- The split index of the scan lies strictly below `length − 1` (for a list
of length at least 3). -/
lemma findMax_idx_lt (pd : Point K → K) (P : List (Point K))
    (hlen : 3 ≤ P.length) :
    (findMaxAux pd (P.drop 1).dropLast 1 (0, 0)).2 < P.length - 1 := by
  have hil : ((P.drop 1).dropLast).length = P.length - 2 := by
    simp only [List.length_dropLast, List.length_drop]
    omega
  obtain ⟨-, -, h3⟩ := findMaxAux_spec pd (P.drop 1).dropLast 1 0 0
  rcases h3 with h | ⟨j, hj, he2, -, -, -⟩
  · rw [h]
    simp only
    omega
  · rw [he2]
    rw [hil] at hj
    omega

/-- Reading the interior list `(P.drop 1).dropLast` at `k` is reading `P` at
`k + 1`. -/
lemma interior_get (P : List (Point K)) (k : Nat)
    (hk : k < ((P.drop 1).dropLast).length) :
    ((P.drop 1).dropLast).get ⟨k, hk⟩ =
      P.get ⟨k + 1, by
        simp [List.length_dropLast, List.length_drop] at hk
        omega⟩ := by
  simp only [List.get_eq_getElem, List.getElem_dropLast, List.getElem_drop]
  congr 1
  omega

/-- With `0 ≤ ε < maxDist`, the scan's result is the value at index
`maxIndex = 1 + j` of `P` (`1 ≤ maxIndex ≤ length − 2`), every interior point
strictly before it lies strictly below `maxDist`, and every interior point
lies weakly below `maxDist`. -/
lemma findMax_interior (pd : Point K → K) (P : List (Point K))
    (hlen : 3 ≤ P.length) {ε : K} (hε : 0 ≤ ε)
    (h : ε < (findMaxAux pd (P.drop 1).dropLast 1 (0, 0)).1) :
    ∃ j, ∃ hj : j + 2 < P.length,
      (findMaxAux pd (P.drop 1).dropLast 1 (0, 0)).2 = 1 + j ∧
      (findMaxAux pd (P.drop 1).dropLast 1 (0, 0)).1 =
        pd (P.get ⟨j + 1, by omega⟩) ∧
      (∀ k (hk : k < j), pd (P.get ⟨k + 1, by omega⟩) <
        (findMaxAux pd (P.drop 1).dropLast 1 (0, 0)).1) ∧
      (∀ k (hk : k + 2 < P.length), pd (P.get ⟨k + 1, by omega⟩) ≤
        (findMaxAux pd (P.drop 1).dropLast 1 (0, 0)).1) := by
  have hil : ((P.drop 1).dropLast).length = P.length - 2 := by
    simp only [List.length_dropLast, List.length_drop]
    omega
  obtain ⟨h1, h2, h3⟩ := findMaxAux_spec pd (P.drop 1).dropLast 1 0 0
  rcases h3 with heq | ⟨j, hj, he2, he1, hgt, hstrict⟩
  · exfalso
    rw [heq] at h
    simp only at h
    exact absurd (lt_of_le_of_lt hε h) (lt_irrefl _)
  · have hjP : j + 2 < P.length := by
      rw [hil] at hj
      omega
    have he1' : (findMaxAux pd (P.drop 1).dropLast 1 (0, 0)).1 =
        pd (P.get ⟨j + 1, by omega⟩) := by
      rw [he1, interior_get P j hj]
    refine ⟨j, hjP, he2, he1', ?_, ?_⟩
    · intro k hk
      have hk' : k < ((P.drop 1).dropLast).length := by
        rw [hil]
        omega
      have hs := hstrict k hk
      rw [interior_get P k hk', interior_get P j hj] at hs
      rw [he1']
      exact hs
    · intro k hk
      have hk' : k < ((P.drop 1).dropLast).length := by
        rw [hil]
        omega
      have hs := h1 k hk'
      rw [interior_get P k hk'] at hs
      exact hs

/-- The simplifier's output is a subsequence (order-preserving selection) of
its input, for every budget and epsilon. -/
lemma optF_sublist (prims : Prims K) :
    ∀ (fuel : Nat) (P : List (Point K)) (ε : K),
      List.Sublist (optimizePointsF prims fuel P ε) P := by
  intro fuel
  induction fuel with
  | zero =>
    intro P ε
    exact List.Sublist.refl P
  | succ f ih =>
    intro P ε
    rw [optF_succ]
    by_cases h3 : P.length < 3
    · rw [if_pos h3]
    · rw [if_neg h3]
      set pd : Point K → K :=
        fun p => perpendicularDistance prims p P.headI P.getLastI with hpd
      set m := findMaxAux pd (P.drop 1).dropLast 1 (0, 0) with hm
      have hidx : m.2 < P.length - 1 := findMax_idx_lt pd P (by omega)
      by_cases hb : ε < m.1
      · rw [if_pos hb]
        have hconc := List.take_concat_get' P m.2 (by omega)
        have hleft : List.Sublist (optimizePointsF prims f (P.take (m.2 + 1)) ε)
            (P.take m.2 ++ [P.get ⟨m.2, by omega⟩]) := by
          rw [List.get_eq_getElem, hconc]
          exact ih _ ε
        have hleft' := dropLast_sublist_of_sublist_concat hleft
        have hright := ih (P.drop m.2) ε
        have := List.Sublist.append hleft' hright
        rwa [List.take_append_drop] at this
      · rw [if_neg hb]
        obtain ⟨a, t, rfl⟩ : ∃ a t, P = a :: t := by
          cases P with
          | nil => simp at h3
          | cons a t => exact ⟨a, t, rfl⟩
        have htne : t ≠ [] := by
          intro hcon
          rw [hcon] at h3
          simp at h3
        show List.Sublist [(a :: t).headI, (a :: t).getLastI] (a :: t)
        have hh : (a :: t).headI = a := rfl
        rw [hh]
        have hcons : a :: t = [a] ++ t := rfl
        have hlast : (a :: t).getLastI = t.getLastI := by
          rw [hcons, getLastI_append htne]
        have hmem : t.getLastI ∈ t := by
          rw [getLastI_eq_get _ htne]
          exact List.get_mem t _ _
        rw [hlast]
        exact List.Sublist.cons₂ a (List.singleton_sublist.mpr hmem)

/-- `headI` survives `dropLast` on lists with at least two elements. -/
lemma headI_dropLast {α : Type} [Inhabited α] (l : List α) (h : 2 ≤ l.length) :
    l.dropLast.headI = l.headI := by
  cases l with
  | nil => simp at h
  | cons a t =>
    cases t with
    | nil => simp at h
    | cons b t' => rfl

/-- Under `0 ≤ ε` and sufficient budget, the simplifier keeps at least two
points and preserves the first and the last point of any list with at least
two points. -/
lemma optF_shape (prims : Prims K) :
    ∀ (fuel : Nat) (P : List (Point K)) (ε : K), 0 ≤ ε →
      P.length ≤ fuel → 2 ≤ P.length →
      2 ≤ (optimizePointsF prims fuel P ε).length ∧
      (optimizePointsF prims fuel P ε).headI = P.headI ∧
      (optimizePointsF prims fuel P ε).getLastI = P.getLastI := by
  intro fuel
  induction fuel with
  | zero =>
    intro P ε hε hf h2
    exact absurd h2 (by omega)
  | succ f ih =>
    intro P ε hε hf h2
    rw [optF_succ]
    by_cases h3 : P.length < 3
    · rw [if_pos h3]
      exact ⟨h2, rfl, rfl⟩
    · rw [if_neg h3]
      have hPne : P ≠ [] := by
        intro hcon
        rw [hcon] at h2
        simp at h2
      set pd : Point K → K :=
        fun p => perpendicularDistance prims p P.headI P.getLastI with hpd
      set m := findMaxAux pd (P.drop 1).dropLast 1 (0, 0) with hm
      by_cases hb : ε < m.1
      · rw [if_pos hb]
        obtain ⟨j, hj, he2, he1, hstrict, hall⟩ :=
          findMax_interior pd P (by omega) hε hb
        have hm2 : m.2 = 1 + j := he2
        have htlen : (P.take (m.2 + 1)).length = m.2 + 1 := by
          simp only [List.length_take]
          omega
        have hdlen : (P.drop m.2).length = P.length - m.2 := by
          simp only [List.length_drop]
        obtain ⟨hL1, hL2, hL3⟩ :=
          ih (P.take (m.2 + 1)) ε hε (by omega) (by omega)
        obtain ⟨hR1, hR2, hR3⟩ := ih (P.drop m.2) ε hε (by omega) (by omega)
        set A := optimizePointsF prims f (P.take (m.2 + 1)) ε with hA
        set R := optimizePointsF prims f (P.drop m.2) ε with hR
        have hAdl : A.dropLast.length = A.length - 1 := by simp
        have hAne : A.dropLast ≠ [] := by
          intro hcon
          rw [hcon] at hAdl
          simp at hAdl
          omega
        have hRne : R ≠ [] := by
          intro hcon
          rw [hcon] at hR1
          simp at hR1
        refine ⟨?_, ?_, ?_⟩
        · have : (A.dropLast ++ R).length = A.dropLast.length + R.length := by
            simp
          omega
        · rw [headI_append hAne, headI_dropLast A hL1, hL2,
            headI_take P (m.2 + 1) (by omega) hPne]
        · rw [getLastI_append hRne, hR3, getLastI_drop P m.2 (by omega)]
      · rw [if_neg hb]
        refine ⟨by simp, rfl, rfl⟩

/-- Lists shorter than 3 are returned unchanged for every budget. -/
lemma optF_short (prims : Prims K) (f : Nat) (P : List (Point K)) (ε : K)
    (h3 : P.length < 3) : optimizePointsF prims f P ε = P := by
  cases f with
  | zero => rfl
  | succ g => rw [optF_succ, if_pos h3]

/-- With `0 ≤ ε`, any budget of at least `P.length` yields the same result:
the source recursion genuinely terminates within `P.length` levels there. -/
lemma optF_fuel_irrelevant (prims : Prims K) :
    ∀ (n : Nat) (P : List (Point K)) (ε : K), 0 ≤ ε → P.length ≤ n →
      ∀ (f₁ f₂ : Nat), P.length ≤ f₁ → P.length ≤ f₂ →
      optimizePointsF prims f₁ P ε = optimizePointsF prims f₂ P ε := by
  intro n
  induction n with
  | zero =>
    intro P ε hε hn f₁ f₂ h1 h2
    have h3 : P.length < 3 := by omega
    rw [optF_short prims f₁ P ε h3, optF_short prims f₂ P ε h3]
  | succ n ihn =>
    intro P ε hε hn f₁ f₂ h1 h2
    by_cases h3 : P.length < 3
    · rw [optF_short prims f₁ P ε h3, optF_short prims f₂ P ε h3]
    · cases f₁ with
      | zero => omega
      | succ g₁ =>
        cases f₂ with
        | zero => omega
        | succ g₂ =>
          rw [optF_succ, optF_succ, if_neg h3, if_neg h3]
          set pd : Point K → K :=
            fun p => perpendicularDistance prims p P.headI P.getLastI with hpd
          set m := findMaxAux pd (P.drop 1).dropLast 1 (0, 0) with hm
          by_cases hb : ε < m.1
          · rw [if_pos hb, if_pos hb]
            obtain ⟨j, hj, he2, -, -, -⟩ :=
              findMax_interior pd P (by omega) hε hb
            have hm2 : m.2 = 1 + j := he2
            have htlen : (P.take (m.2 + 1)).length = m.2 + 1 := by
              simp only [List.length_take]
              omega
            have hdlen : (P.drop m.2).length = P.length - m.2 := by
              simp only [List.length_drop]
            have hL := ihn (P.take (m.2 + 1)) ε hε (by omega) g₁ g₂
              (by omega) (by omega)
            have hR := ihn (P.drop m.2) ε hε (by omega) g₁ g₂
              (by omega) (by omega)
            rw [hL, hR]
          · rw [if_neg hb, if_neg hb]

/-- A strictly monotone map of finite index types advances by at least the
index difference. -/
lemma strictMono_fin_add_le {n m : Nat} (f : Fin n → Fin m)
    (hf : StrictMono f) (a : Fin n) :
    ∀ d (hd : (a : Nat) + d < n),
      (f a : Nat) + d ≤ (f ⟨(a : Nat) + d, hd⟩ : Nat) := by
  intro d
  induction d with
  | zero =>
    intro hd
    have : a = ⟨(a : Nat) + 0, hd⟩ := by
      apply Fin.ext
      simp
    rw [← this]
    omega
  | succ d ihd =>
    intro hd
    have hd' : (a : Nat) + d < n := by omega
    have h1 := ihd hd'
    have hlt : f ⟨(a : Nat) + d, hd'⟩ < f ⟨(a : Nat) + (d + 1), hd⟩ := by
      apply hf
      simp only [Fin.mk_lt_mk]
      omega
    have h2 : (f ⟨(a : Nat) + d, hd'⟩ : Nat) <
        (f ⟨(a : Nat) + (d + 1), hd⟩ : Nat) := hlt
    omega

/-- Where a subsequence element sits inside the host list: at least `i` from
the front and at least `A.length − 1 − i` from the back. -/
lemma sublist_get_between {α : Type} {A B : List α} (h : List.Sublist A B)
    (i : Nat) (hi : i < A.length) :
    ∃ w, ∃ hw : w < B.length, i ≤ w ∧
      w + (A.length - 1 - i) ≤ B.length - 1 ∧
      A.get ⟨i, hi⟩ = B.get ⟨w, hw⟩ := by
  obtain ⟨f, hfeq⟩ := List.sublist_iff_exists_fin_orderEmbedding_get_eq.mp h
  have hmono : StrictMono f := f.strictMono
  refine ⟨(f ⟨i, hi⟩ : Nat), (f ⟨i, hi⟩).isLt, ?_, ?_, ?_⟩
  · have h0 : (0 : Nat) < A.length := by omega
    have hstep := strictMono_fin_add_le f hmono ⟨0, h0⟩ i (by simpa using hi)
    simp only [Fin.val_mk, Nat.zero_add] at hstep
    exact le_trans (Nat.le_add_left i _) hstep
  · have hlast : (i : Nat) + (A.length - 1 - i) < A.length := by omega
    have := strictMono_fin_add_le f hmono ⟨i, hi⟩ (A.length - 1 - i) hlast
    have hbound : (f ⟨i + (A.length - 1 - i), hlast⟩ : Nat) ≤ B.length - 1 := by
      have := (f ⟨i + (A.length - 1 - i), hlast⟩).isLt
      omega
    omega
  · exact hfeq ⟨i, hi⟩

/-- `take 1` of a non-empty list is the singleton head. -/
lemma take_one_of_ne_nil {α : Type} [Inhabited α] {l : List α} (h : l ≠ []) :
    l.take 1 = [l.headI] := by
  cases l with
  | nil => exact absurd rfl h
  | cons a t => rfl

/-- Reattaching the last element after `dropLast`. -/
lemma dropLast_append_getLastI {α : Type} [Inhabited α] {l : List α}
    (h : l ≠ []) : l.dropLast ++ [l.getLastI] = l := by
  have h2 := List.dropLast_append_getLast h
  have h3 : l.getLastI = l.getLast h := by
    rw [getLastI_eq_get _ h, List.getLast_eq_getElem]
    simp [List.get_eq_getElem]
  rw [h3, h2]

/-- Core idempotence: with `0 ≤ ε`, re-running the simplifier on its own
output returns the output unchanged. -/
lemma opt_idempotent (prims : Prims K) :
    ∀ (n : Nat) (P : List (Point K)) (ε : K), 0 ≤ ε → P.length ≤ n →
      optimizePoints prims (optimizePoints prims P ε) ε =
        optimizePoints prims P ε := by
  intro n
  induction n with
  | zero =>
    intro P ε hε hn
    have h3 : P.length < 3 := by omega
    have hPP : optimizePoints prims P ε = P := by
      rw [optimizePoints]
      exact optF_short prims _ P ε h3
    rw [hPP]
    exact hPP
  | succ n ihn =>
    intro P ε hε hn
    by_cases h3 : P.length < 3
    · have hPP : optimizePoints prims P ε = P := by
        rw [optimizePoints]
        exact optF_short prims _ P ε h3
      rw [hPP]
      exact hPP
    · obtain ⟨g, hg⟩ : ∃ g, P.length = g + 1 := ⟨P.length - 1, by omega⟩
      have hO : optimizePoints prims P ε = optimizePointsF prims (g + 1) P ε := by
        rw [optimizePoints, hg]
      rw [hO, optF_succ, if_neg h3]
      set pd : Point K → K :=
        fun p => perpendicularDistance prims p P.headI P.getLastI with hpd
      set m := findMaxAux pd (P.drop 1).dropLast 1 (0, 0) with hm
      by_cases hb : ε < m.1
      swap
      · rw [if_neg hb]
        rw [optimizePoints, optF_short prims _ _ ε (by simp)]
      · rw [if_pos hb]
        obtain ⟨j, hj, he2, he1, hstrict, hall⟩ :=
          findMax_interior pd P (by omega) hε hb
        set A := optimizePointsF prims g (P.take (m.2 + 1)) ε with hA
        set R := optimizePointsF prims g (P.drop m.2) ε with hR
        have hm2 : m.2 = 1 + j := he2
        have htlen : (P.take (m.2 + 1)).length = m.2 + 1 := by
          simp only [List.length_take]
          omega
        have hdlen : (P.drop m.2).length = P.length - m.2 := by
          simp only [List.length_drop]
        have hPne : P ≠ [] := by
          intro hcon
          rw [hcon] at h3
          simp at h3
        have hA1 : 2 ≤ A.length :=
          (optF_shape prims g (P.take (m.2 + 1)) ε hε (by omega) (by omega)).1
        have hA2 : A.headI = (P.take (m.2 + 1)).headI :=
          (optF_shape prims g (P.take (m.2 + 1)) ε hε (by omega)
            (by omega)).2.1
        have hA3 : A.getLastI = (P.take (m.2 + 1)).getLastI :=
          (optF_shape prims g (P.take (m.2 + 1)) ε hε (by omega)
            (by omega)).2.2
        have hR1 : 2 ≤ R.length :=
          (optF_shape prims g (P.drop m.2) ε hε (by omega) (by omega)).1
        have hR2 : R.headI = (P.drop m.2).headI :=
          (optF_shape prims g (P.drop m.2) ε hε (by omega) (by omega)).2.1
        have hR3 : R.getLastI = (P.drop m.2).getLastI :=
          (optF_shape prims g (P.drop m.2) ε hε (by omega) (by omega)).2.2
        have hm2P : m.2 < P.length := by omega
        have hA2' : A.headI = P.headI := by
          rw [hA2, headI_take P (m.2 + 1) (by omega) hPne]
        have hA3' : A.getLastI = P.get ⟨m.2, hm2P⟩ := by
          rw [hA3, getLastI_take_succ P m.2 hm2P]
        have hR2' : R.headI = P.get ⟨m.2, hm2P⟩ := by
          rw [hR2, headI_drop P m.2 hm2P]
        have hR3' : R.getLastI = P.getLastI := by
          rw [hR3, getLastI_drop P m.2 hm2P]
        have hAdl : A.dropLast.length = A.length - 1 := by simp
        have hAne : A ≠ [] := by
          intro hcon
          rw [hcon] at hA1
          simp at hA1
        have hAdlne : A.dropLast ≠ [] := by
          intro hcon
          rw [hcon] at hAdl
          simp at hAdl
          omega
        have hRne : R ≠ [] := by
          intro hcon
          rw [hcon] at hR1
          simp at hR1
        have hOlen : (A.dropLast ++ R).length = A.length - 1 + R.length := by
          simp
        have hOh : (A.dropLast ++ R).headI = P.headI := by
          rw [headI_append hAdlne, headI_dropLast A hA1, hA2']
        have hOl : (A.dropLast ++ R).getLastI = P.getLastI := by
          rw [getLastI_append hRne, hR3']
        have hAopt : A = optimizePoints prims (P.take (m.2 + 1)) ε := by
          rw [hA, optimizePoints]
          exact optF_fuel_irrelevant prims (P.take (m.2 + 1)).length
            (P.take (m.2 + 1)) ε hε (le_refl _) g (P.take (m.2 + 1)).length
            (by omega) (le_refl _)
        have hRopt : R = optimizePoints prims (P.drop m.2) ε := by
          rw [hR, optimizePoints]
          exact optF_fuel_irrelevant prims (P.drop m.2).length
            (P.drop m.2) ε hε (le_refl _) g (P.drop m.2).length
            (by omega) (le_refl _)
        have hidemA : optimizePoints prims A ε = A := by
          rw [hAopt]
          exact ihn (P.take (m.2 + 1)) ε hε (by omega)
        have hidemR : optimizePoints prims R ε = R := by
          rw [hRopt]
          exact ihn (P.drop m.2) ε hε (by omega)
        -- interior values of the recombined list
        have hOint : ((A.dropLast ++ R).drop 1).dropLast.length =
            (A.dropLast ++ R).length - 2 := by
          simp only [List.length_dropLast, List.length_drop]
          omega
        have hsubA : List.Sublist A (P.take (m.2 + 1)) := by
          rw [hA]
          exact optF_sublist prims g (P.take (m.2 + 1)) ε
        have hsubR : List.Sublist R (P.drop m.2) := by
          rw [hR]
          exact optF_sublist prims g (P.drop m.2) ε
        -- every strictly-left interior value of O is one of P's strict zone
        have hleftlt : ∀ k (hk1 : k + 1 < A.length - 1),
            pd ((A.dropLast ++ R).get ⟨k + 1, by
              rw [hOlen]
              omega⟩) < m.1 := by
          intro k hk1
          have hgetO : (A.dropLast ++ R).get ⟨k + 1, by
              rw [hOlen]
              omega⟩ = A.get ⟨k + 1, by omega⟩ := by
            simp only [List.get_eq_getElem]
            rw [List.getElem_append_left (by
              rw [hAdl]
              omega)]
            simp only [List.getElem_dropLast]
          rw [hgetO]
          obtain ⟨w, hw, hwlo, hwhi, hwval⟩ :=
            sublist_get_between hsubA (k + 1) (by omega)
          rw [htlen] at hw
          rw [htlen] at hwhi
          have hw1 : 1 ≤ w := by omega
          have hwj : w - 1 < j := by omega
          have hPval : A.get ⟨k + 1, by omega⟩ = P.get ⟨w, by omega⟩ := by
            rw [hwval]
            simp only [List.get_eq_getElem, List.getElem_take]
          rw [hPval]
          have hs := hstrict (w - 1) hwj
          rw [← hm] at hs
          convert hs using 3
          apply Fin.ext
          simp only [Fin.val_mk]
          omega
        -- every right-side interior value of O is weakly below m.1
        have hrightle : ∀ k (hkO : k + 1 < (A.dropLast ++ R).length - 1)
            (hk1 : A.length - 1 ≤ k + 1),
            pd ((A.dropLast ++ R).get ⟨k + 1, by omega⟩) ≤ m.1 := by
          intro k hkO hk1
          have hrR : k + 1 - (A.length - 1) < R.length := by
            rw [hOlen] at hkO
            omega
          have hgetO : (A.dropLast ++ R).get ⟨k + 1, by omega⟩ =
              R.get ⟨k + 1 - (A.length - 1), hrR⟩ := by
            simp only [List.get_eq_getElem]
            rw [List.getElem_append_right (by
              rw [hAdl]
              omega)]
            congr 1
            rw [hAdl]
          rw [hgetO]
          obtain ⟨w, hw, hwlo, hwhi, hwval⟩ :=
            sublist_get_between hsubR (k + 1 - (A.length - 1)) hrR
          rw [hdlen] at hw
          have hPval : R.get ⟨k + 1 - (A.length - 1), hrR⟩ =
              P.get ⟨m.2 + w, by omega⟩ := by
            rw [hwval]
            simp only [List.get_eq_getElem, List.getElem_drop]
          rw [hPval]
          have hpos : 1 ≤ m.2 + w := by omega
          have hup : m.2 + w - 1 + 2 < P.length := by
            rw [hdlen] at hwhi
            omega
          have hs := hall (m.2 + w - 1) hup
          rw [← hm] at hs
          convert hs using 3
          apply Fin.ext
          simp only [Fin.val_mk]
          omega
        -- the junction point carries the same maximal value
        have hjunc : A.length - 2 < ((A.dropLast ++ R).drop 1).dropLast.length := by
          rw [hOint, hOlen]
          omega
        have hjuncval : pd ((((A.dropLast ++ R).drop 1).dropLast).get
            ⟨A.length - 2, hjunc⟩) = m.1 := by
          rw [interior_get (A.dropLast ++ R) (A.length - 2) hjunc]
          have hgetO : (A.dropLast ++ R).get ⟨A.length - 2 + 1, by
              rw [hOlen]
              omega⟩ = R.get ⟨0, by omega⟩ := by
            simp only [List.get_eq_getElem]
            rw [List.getElem_append_right (by
              rw [hAdl]
              omega)]
            congr 1
            rw [hAdl]
            omega
          rw [hgetO]
          have hR0 : R.get ⟨0, by omega⟩ = R.headI := by
            rw [headI_eq_get R hRne]
          rw [hR0, hR2']
          have hval := he1
          rw [← hm] at hval
          rw [hval]
          congr 2
          apply Fin.ext
          simp only [Fin.val_mk]
          omega
        have hdet := findMaxAux_determined pd
          (((A.dropLast ++ R).drop 1).dropLast) m.1 (A.length - 2) hjunc
          hjuncval (lt_of_le_of_lt hε hb)
          (by
            intro k hk
            have hk1 : k < ((A.dropLast ++ R).drop 1).dropLast.length := by
              omega
            rw [interior_get (A.dropLast ++ R) k hk1]
            exact hleftlt k (by omega))
          (by
            intro k hk
            rw [interior_get (A.dropLast ++ R) k hk]
            by_cases hcase : k + 1 < A.length - 1
            · exact le_of_lt (hleftlt k hcase)
            · rw [hOint] at hk
              exact hrightle k (by omega) (by omega))
        have hdet1 : (findMaxAux pd (((A.dropLast ++ R).drop 1).dropLast)
            1 (0, 0)).1 = m.1 := by
          rw [hdet]
        have hdet2 : (findMaxAux pd (((A.dropLast ++ R).drop 1).dropLast)
            1 (0, 0)).2 = 1 + (A.length - 2) := by
          rw [hdet]
        -- unfold the second pass
        obtain ⟨t, ht⟩ : ∃ t, (A.dropLast ++ R).length = t + 1 :=
          ⟨(A.dropLast ++ R).length - 1, by omega⟩
        have hfuelA : A.length ≤ t := by omega
        have hfuelR : R.length ≤ t := by omega
        rw [optimizePoints, ht, optF_succ,
          if_neg (show ¬ (A.dropLast ++ R).length < 3 by omega)]
        simp only [hOh, hOl]
        rw [← hpd]
        rw [hdet1, hdet2, if_pos hb]
        have hidx1 : 1 + (A.length - 2) + 1 = A.length := by omega
        have hidx2 : 1 + (A.length - 2) = A.length - 1 := by omega
        rw [hidx1, hidx2]
        have hOtake : (A.dropLast ++ R).take A.length = A := by
          rw [List.take_append_eq_append_take]
          have h1 : A.dropLast.take A.length = A.dropLast :=
            List.take_of_length_le (by
              rw [hAdl]
              omega)
          have h2 : A.length - A.dropLast.length = 1 := by
            rw [hAdl]
            omega
          rw [h1, h2, take_one_of_ne_nil hRne, hR2', ← hA3']
          exact dropLast_append_getLastI hAne
        have hOdrop : (A.dropLast ++ R).drop (A.length - 1) = R := by
          rw [← hAdl]
          exact List.drop_left _ _
        rw [hOtake, hOdrop]
        have hAfin : optimizePointsF prims t A ε = A := by
          rw [optF_fuel_irrelevant prims A.length A ε hε (le_refl _) t
            A.length hfuelA (le_refl _)]
          show optimizePoints prims A ε = A
          exact hidemA
        have hRfin : optimizePointsF prims t R ε = R := by
          rw [optF_fuel_irrelevant prims R.length R ε hε (le_refl _) t
            R.length hfuelR (le_refl _)]
          show optimizePoints prims R ε = R
          exact hidemR
        rw [hAfin, hRfin]

end C6Proof

section C6

variable {K : Type} [LinearOrderedField K] [FloorRing K]

/-- **C6.** The Ramer–Douglas–Peucker simplifier `optimizePoints` is
idempotent: for every list of points and every non-negative epsilon (the
`svg.ts` call site uses `0.5`), applying it a second time with the same
epsilon to its own output returns that output unchanged — no further point
removal. -/
theorem optimizePoints_idempotent (prims : Prims K)
    (points : List (Point K)) (epsilon : K) (hε : 0 ≤ epsilon) :
    optimizePoints prims (optimizePoints prims points epsilon) epsilon =
      optimizePoints prims points epsilon :=
  opt_idempotent prims points.length points epsilon hε (le_refl _)

/-- A concrete noise bundle whose samplers all return zero, used to
instantiate witnesses and counterexamples at `ℚ`. -/
def zeroNoise : Noise ℚ where
  noise2D := fun _ _ => 0
  fbm := fun _ _ _ _ _ => 0
  curl2D := fun _ _ _ _ _ => (0, 0)
  ridged := fun _ _ _ _ _ => 0
  warpedFbm := fun _ _ _ _ _ _ => 0

/-- Concrete rational primitives for witness evaluation: `sqrt` is exact on
`1` (the only value whose root the witness runs need), `cos`/`sin` pin the
angle `0` direction, `pow` is the constant `1`. -/
def qprims : Prims ℚ where
  sqrt := fun v => if v = 1 then 1 else 0
  cos := fun _ => 1
  sin := fun _ => 0
  pow := fun _ _ => 1
  createNoise := fun _ => zeroNoise
  numToString := fun _ => ""

/-- Concrete instantiation of `optimizePoints_idempotent` at a three-point
polyline and `ε = 1/2`, hypothesis discharged. -/
theorem optimizePoints_idempotent_witness :
    (0 : ℚ) ≤ 1/2 ∧
      optimizePoints qprims
        (optimizePoints qprims [⟨0, 0⟩, ⟨1, 1⟩, ⟨2, 0⟩] (1/2)) (1/2) =
      optimizePoints qprims [⟨0, 0⟩, ⟨1, 1⟩, ⟨2, 0⟩] (1/2) :=
  ⟨by norm_num,
    optimizePoints_idempotent qprims [⟨0, 0⟩, ⟨1, 1⟩, ⟨2, 0⟩] (1/2)
      (by norm_num)⟩

end C6

section FlowLinesDefs

variable {K : Type} [LinearOrderedField K] [FloorRing K]

/-- `interface FlowLinesOptions` of `flow-lines.ts`: every optional field is
an `Option`, with defaults resolved inside `generateFlowLines` exactly as in
the source destructuring. -/
structure FlowLinesOptions (K : Type) where
  width : K
  height : K
  lineCount : Nat
  stepLength : Option K := none
  maxSteps : Option Nat := none
  margin : Option K := none
  minLineLength : Option Nat := none
  fieldResolution : Option K := none
  seed : Option Int := none
  noiseScale : Option K := none
  octaves : Option Nat := none
  persistence : Option K := none
  lacunarity : Option K := none
  fieldMode : Option FieldMode := none
  spiralStrength : Option K := none
  warpStrength : Option K := none
  startPoints : Option (List (Point K)) := none
  attractors : Option (List (Attractor K)) := none
  smoothing : Option K := none
  separationDistance : Option K := none
  bidirectional : Option Bool := none
  densityPoints : Option (List (DensityPoint K)) := none
  densityVariation : Option K := none
  densityNoiseScale : Option K := none
  minSeparation : Option K := none
  evenDistribution : Option Bool := none
  fillMode : Option Bool := none
  organicWobble : Option K := none
  velocityFadeout : Option Bool := none
  edgeAttraction : Option K := none
  lineFatigue : Option K := none
  spacingVariation : Option K := none
  swarmMode : Option Bool := none
  swarmAgentCount : Option Nat := none
  swarmClusterBias : Option K := none
  swarmChildSpawnRate : Option K := none
  swarmFlowInfluence : Option K := none
  swarmClusterAttraction : Option K := none
  swarmFormInfluence : Option K := none
  swarmVoidSize : Option K := none
  swarmEnergyVariation : Option K := none
  formHatchingMode : Option Bool := none
  formScale : Option K := none
  formContrast : Option K := none
  hatchDensity : Option K := none
  hatchLengthVariation : Option K := none
  hatchAngleVariation : Option K := none
  hatchOverlap : Option K := none

/-- `interface FlowLinesResult`. -/
structure FlowLinesResult (K : Type) where
  lines : List (FlowLine K)
  width : K
  height : K
  seed : Int
deriving DecidableEq

/-- `generateStartPoints(width, height, count, margin, seed)`: seeded-random
scatter inside the margin box. -/
def generateStartPoints (width height : K) (count : Nat) (margin : K)
    (seed : Int) : List (Point K) :=
  ((List.range count).foldl
    (fun (acc : List (Point K) × Int) _ =>
      let rx := randStep (K := K) acc.2
      let ry := randStep (K := K) rx.2
      (acc.1 ++ [⟨margin + rx.1 * (width - 2 * margin),
        margin + ry.1 * (height - 2 * margin)⟩], ry.2))
    ([], seed)).1

/-- The loop body shared by `traceLine` and the two symmetric loops of
`traceLineBidirectional` (`dirSign = 1` steps along the field vector,
`dirSign = -1` against it, matching `current ± vector·stepLength`): produce
the stream of accepted step points after the start.  A step is rejected —
ending the trace — when it leaves the margin box or, when a separation grid
and a non-zero separation distance are configured, when it comes too close
to already-placed points. -/
def traceLoopGo (field : FlowField K) (prims : Prims K) (dirSign : K)
    (stepLength : K) (margin : K) (attractors : Option (List (Attractor K)))
    (spatialGrid : Option (SpatialGrid K)) (separationDistance : K) :
    Nat → Point K → List (Point K)
  | 0, _ => []
  | fuel + 1, current =>
    let vector := field.getVector prims current.x current.y attractors
    let next : Point K := ⟨current.x + dirSign * vector.x * stepLength,
      current.y + dirSign * vector.y * stepLength⟩
    if field.isInBounds next.x next.y margin = false then []
    else if (match spatialGrid with
      | some g =>
        decide (separationDistance ≠ 0) && g.hasNearby next.x next.y
          separationDistance
      | none => false) then []
    else next :: traceLoopGo field prims dirSign stepLength margin attractors
      spatialGrid separationDistance fuel next

/-- `traceLine(field, start, stepLength, maxSteps, margin, attractors?,
spatialGrid?, separationDistance?)`. -/
def traceLine (field : FlowField K) (prims : Prims K) (start : Point K)
    (stepLength : K) (maxSteps : Nat) (margin : K)
    (attractors : Option (List (Attractor K)))
    (spatialGrid : Option (SpatialGrid K)) (separationDistance : K) :
    FlowLine K :=
  ⟨start :: traceLoopGo field prims 1 stepLength margin attractors
    spatialGrid separationDistance maxSteps start⟩

/-- `traceLineBidirectional`: forward pass, backward pass (opposite step
direction), then `reverse(backward) ++ forward`. -/
def traceLineBidirectional (field : FlowField K) (prims : Prims K)
    (start : Point K) (stepLength : K) (maxSteps : Nat) (margin : K)
    (attractors : Option (List (Attractor K)))
    (spatialGrid : Option (SpatialGrid K)) (separationDistance : K) :
    FlowLine K :=
  let forwardPoints := start :: traceLoopGo field prims 1 stepLength margin
    attractors spatialGrid separationDistance maxSteps start
  let backwardPoints := traceLoopGo field prims (-1) stepLength margin
    attractors spatialGrid separationDistance maxSteps start
  ⟨backwardPoints.reverse ++ forwardPoints⟩

/-- One Chaikin pass over consecutive pairs: the `for (i = 0; i < len-1)`
inner loop of `smoothLine` emitting the 25% and 75% points. -/
def chaikinPairs : List (Point K) → List (Point K)
  | p0 :: p1 :: rest =>
    ⟨(3/4) * p0.x + (1/4) * p1.x, (3/4) * p0.y + (1/4) * p1.y⟩ ::
    ⟨(1/4) * p0.x + (3/4) * p1.x, (1/4) * p0.y + (3/4) * p1.y⟩ ::
    chaikinPairs (p1 :: rest)
  | _ => []

/-- One iteration of `smoothLine`: keep the first point, the corner-cut
pairs, and the last point. -/
def chaikinStep (points : List (Point K)) : List (Point K) :=
  match points with
  | [] => []
  | p :: rest => p :: chaikinPairs (p :: rest) ++ [(p :: rest).getLastI]

/-- The `for (iter = 0; iter < iterations; iter++)` outer loop. -/
def chaikinIter : Nat → List (Point K) → List (Point K)
  | 0, l => l
  | n + 1, l => chaikinIter n (chaikinStep l)

/-- `smoothLine(points, strength)`: Chaikin corner cutting with
`ceil(strength·3)` iterations, identity on lists shorter than 3. -/
def smoothLine (points : List (Point K)) (strength : K) : List (Point K) :=
  if points.length < 3 then points
  else chaikinIter (⌈strength * 3⌉).toNat points

/-- The candidate-attempt loop (`for (attempt = 0; attempt < k; attempt++)`)
of `generatePoissonDiskPoints`.  State: occupancy grid (as a function from
cell to optional point), accumulated points, active list, RNG state.
Returns whether a candidate was accepted together with the updated state. -/
def poissonAttempts (prims : Prims K) (minDist cellSize width height margin :
    K) (gridWidth gridHeight : Nat) (activePoint : Point K) :
    Nat →
    ((Nat × Nat → Option (Point K)) × List (Point K) × List (Point K) × Int) →
    Bool ×
      ((Nat × Nat → Option (Point K)) × List (Point K) × List (Point K) × Int)
  | 0, st => (false, st)
  | att + 1, (grid, pts, act, s) =>
    let r1 := randStep (K := K) s
    let angle := r1.1 * jsPI K * 2
    let r2 := randStep (K := K) r1.2
    let dist := minDist + r2.1 * minDist
    let candidate : Point K := ⟨activePoint.x + prims.cos angle * dist,
      activePoint.y + prims.sin angle * dist⟩
    if candidate.x < margin ∨ width - margin ≤ candidate.x ∨
        candidate.y < margin ∨ height - margin ≤ candidate.y then
      poissonAttempts prims minDist cellSize width height margin gridWidth
        gridHeight activePoint att (grid, pts, act, r2.2)
    else
      let cgx : Int := ⌊(candidate.x - margin) / cellSize⌋
      let cgy : Int := ⌊(candidate.y - margin) / cellSize⌋
      let tooClose := (List.range 5).any fun dyi =>
        (List.range 5).any fun dxi =>
          let nx := cgx + (dxi : Int) - 2
          let ny := cgy + (dyi : Int) - 2
          decide (0 ≤ nx ∧ nx < (gridWidth : Int) ∧ 0 ≤ ny ∧
            ny < (gridHeight : Int)) &&
          (match grid (ny.toNat, nx.toNat) with
            | some neighbor =>
              decide (prims.sqrt ((neighbor.x - candidate.x) ^ 2 +
                (neighbor.y - candidate.y) ^ 2) < minDist)
            | none => false)
      if tooClose then
        poissonAttempts prims minDist cellSize width height margin gridWidth
          gridHeight activePoint att (grid, pts, act, r2.2)
      else
        let grid' := if 0 ≤ cgx ∧ cgx < (gridWidth : Int) ∧ 0 ≤ cgy ∧
            cgy < (gridHeight : Int) then
          fun q => if q = (cgy.toNat, cgx.toNat) then some candidate
            else grid q
        else grid
        (true, (grid', pts ++ [candidate], act ++ [candidate], r2.2))

/-- The dart-throwing `while` loop of `generatePoissonDiskPoints`.  Each pass
either accepts a candidate (bounded by the `targetCount·2` cap) or retires
one active point, so `4·targetCount + 2` passes bound every execution. -/
def poissonLoop (prims : Prims K) (minDist cellSize width height margin : K)
    (gridWidth gridHeight targetCount : Nat) :
    Nat →
    ((Nat × Nat → Option (Point K)) × List (Point K) × List (Point K) × Int) →
    List (Point K) × Int
  | 0, (_, pts, _, s) => (pts, s)
  | fuel + 1, (grid, pts, act, s) =>
    if act.length = 0 ∨ ¬ (pts.length < targetCount * 2) then (pts, s)
    else
      let r := randStep (K := K) s
      let activeIdx : Nat := (⌊r.1 * (act.length : K)⌋).toNat
      let activePoint := act.getD activeIdx ⟨0, 0⟩
      let res := poissonAttempts prims minDist cellSize width height margin
        gridWidth gridHeight activePoint 30 (grid, pts, act, r.2)
      if res.1 then
        poissonLoop prims minDist cellSize width height margin gridWidth
          gridHeight targetCount fuel res.2
      else
        poissonLoop prims minDist cellSize width height margin gridWidth
          gridHeight targetCount fuel
          (res.2.1, res.2.2.1, res.2.2.2.1.eraseIdx activeIdx, res.2.2.2.2)

/-- The final seeded Fisher–Yates pass of `generatePoissonDiskPoints`
(`for (i = len−1; i > 0; i--)`).  The source's `j = floor(random()·(i+1))`
indexes one past the end when `random()` returns exactly 1, upon which the
destructuring swap writes `undefined` into the array and every downstream
point access throws; the model leaves the list unchanged in that
measure-zero case (a genuine no-op, injecting nothing). -/
def poissonShuffle : Nat → List (Point K) × Int → List (Point K) × Int
  | 0, st => st
  | i + 1, (pts, s) =>
    let r := randStep (K := K) s
    let j : Nat := (⌊r.1 * ((i + 1 : Nat) + 1 : K)⌋).toNat
    let next :=
      if j < pts.length then
        let a := pts.getD (i + 1) ⟨0, 0⟩
        let b := pts.getD j ⟨0, 0⟩
        (pts.set (i + 1) b).set j a
      else pts
    poissonShuffle i (next, r.2)

/-- `generatePoissonDiskPoints(width, height, targetCount, margin, seed)`. -/
def generatePoissonDiskPoints (prims : Prims K) (width height : K)
    (targetCount : Nat) (margin : K) (seed : Int) : List (Point K) :=
  let area := (width - 2 * margin) * (height - 2 * margin)
  let minDist := prims.sqrt (area / ((targetCount : K) * jsPI K)) * (3/2)
  let cellSize := minDist / prims.sqrt 2
  let gridWidth : Nat := (⌈(width - 2 * margin) / cellSize⌉).toNat
  let gridHeight : Nat := (⌈(height - 2 * margin) / cellSize⌉).toNat
  let r1 := randStep (K := K) seed
  let r2 := randStep (K := K) r1.2
  let firstPoint : Point K := ⟨margin + r1.1 * (width - 2 * margin),
    margin + r2.1 * (height - 2 * margin)⟩
  let gx : Int := ⌊(firstPoint.x - margin) / cellSize⌋
  let gy : Int := ⌊(firstPoint.y - margin) / cellSize⌋
  let grid0 : Nat × Nat → Option (Point K) :=
    if 0 ≤ gx ∧ gx < (gridWidth : Int) ∧ 0 ≤ gy ∧ gy < (gridHeight : Int) then
      fun q => if q = (gy.toNat, gx.toNat) then some firstPoint else none
    else fun _ => none
  let res := poissonLoop prims minDist cellSize width height margin gridWidth
    gridHeight targetCount (4 * targetCount + 2)
    (grid0, [firstPoint], [firstPoint], r2.2)
  let shuffled := (poissonShuffle (res.1.length - 1) res).1
  shuffled.take targetCount

/-- `interface DensityConfig`. -/
structure DensityConfig (K : Type) where
  points : List (DensityPoint K)
  variation : K
  noiseScale : K
  minSeparation : K
  noise : Option (Noise K)

/-- `interface OrganicConfig`. -/
structure OrganicConfig (K : Type) where
  wobble : K
  velocityFadeout : Bool
  edgeAttraction : K
  wobbleNoise : Option (Noise K)
  lineFatigue : K
  fatigueNoise : Option (Noise K)

/-- `interface TraceConfig`. -/
structure TraceConfig (K : Type) where
  stepLength : K
  maxSteps : Nat
  margin : K
  baseSeparation : K
  attractors : Option (List (Attractor K))
  density : DensityConfig K
  organic : OrganicConfig K
  canvasWidth : K
  canvasHeight : K

/-- `calculateSeparation(x, y, baseSeparation, minSeparation, densityPoints,
densityNoise, densityNoiseScale, densityVariation)`. -/
def calculateSeparation (prims : Prims K) (x y baseSeparation minSeparation :
    K) (densityPoints : List (DensityPoint K))
    (densityNoise : Option (Noise K)) (densityNoiseScale densityVariation :
    K) : K :=
  let target0 := baseSeparation
  let targetSeparation :=
    match densityNoise with
    | some n =>
      if 0 < densityVariation then
        let noiseVal := n.fbm (x * densityNoiseScale) (y * densityNoiseScale)
          3 (1/2) 2
        let noiseMultiplier := (1/5) + (noiseVal + 1) * (1/2) *
          (1 + densityVariation * (3/2))
        baseSeparation * noiseMultiplier
      else target0
    | none => target0
  let targetSeparation2 :=
    if 0 < densityPoints.length then
      let maxInfluence := densityPoints.foldl
        (fun acc dp =>
          let dx := x - dp.x
          let dy := y - dp.y
          let dist := prims.sqrt (dx * dx + dy * dy)
          if dist < dp.radius then
            let falloff := 1 - dist / dp.radius
            let smoothFalloff := falloff * falloff * (3 - 2 * falloff)
            let influence := smoothFalloff * dp.strength
            max acc influence
          else acc) 0
      if 0 < maxInfluence then
        targetSeparation * (1 - maxInfluence * (9/10))
      else targetSeparation
    else targetSeparation
  max minSeparation targetSeparation2

/-- `calculateSeparationWithConfig`. -/
def calculateSeparationWithConfig (prims : Prims K) (x y baseSeparation : K)
    (density : DensityConfig K) : K :=
  calculateSeparation prims x y baseSeparation density.minSeparation
    density.points density.noise density.noiseScale density.variation

/-- `calculateEdgeInfluence(x, y, width, height, margin, strength)`. -/
def calculateEdgeInfluence (prims : Prims K) (x y width height margin
    strength : K) : Point K :=
  let distToLeft := x - margin
  let distToRight := (width - margin) - x
  let distToTop := y - margin
  let distToBottom := (height - margin) - y
  let minDist := min (min distToLeft distToRight) (min distToTop distToBottom)
  let threshold := min width height * (3/10)
  if threshold < minDist then ⟨0, 0⟩
  else
    let influence := strength * prims.pow (1 - minDist / threshold) (3/2)
    let edgeX := if minDist = distToLeft then (-1 : K)
      else if minDist = distToRight then 1 else 0
    let edgeY := if minDist = distToLeft ∨ minDist = distToRight then (0 : K)
      else if minDist = distToTop then -1
      else if minDist = distToBottom then 1 else 0
    ⟨edgeX * influence, edgeY * influence⟩

/-- The `computeStep` closure of `traceStreamlineVariable`: one candidate
step with velocity fadeout, line fatigue, edge attraction and wobble;
returns the point and whether the trace must stop. -/
def computeStep (field : FlowField K) (prims : Prims K)
    (spatialGrid : SpatialGrid K) (config : TraceConfig K)
    (skipCollisionCheck : Bool) (current : Point K) (direction : K)
    (stepIdx : Nat) : Point K × Bool :=
  let wobbleScale : K := 1/50
  let minStepsBeforeFatigue : Nat := 10
  let velocityThreshold : K := 3/10
  let minStepSize : K := 1/2
  let vector := field.getVector prims current.x current.y config.attractors
  let velocity := prims.sqrt (vector.x * vector.x + vector.y * vector.y)
  let fade : K × Bool :=
    if config.organic.velocityFadeout ∧ velocity < velocityThreshold then
      let es := config.stepLength * max (1/10) (velocity / velocityThreshold)
      (es, decide (es < minStepSize))
    else (config.stepLength, false)
  if fade.2 then (current, true)
  else
    let effectiveStep := fade.1
    let fatigueStop : Bool :=
      decide (0 < config.organic.lineFatigue) &&
      (match config.organic.fatigueNoise with
        | some fn =>
          decide (minStepsBeforeFatigue < stepIdx) &&
          (let fatigueNoiseVal := fn.noise2D (current.x * (8/1000))
            (current.y * (8/1000))
           let randomVal := fn.noise2D
            (current.x * (1/10) + (stepIdx : K) * (1/2))
            (current.y * (1/10) + direction * 100)
           let terminationChance := config.organic.lineFatigue * (3/100) *
            (1 + fatigueNoiseVal)
           decide ((randomVal + 1) * (1/2) < terminationChance))
        | none => false)
    if fatigueStop then (current, true)
    else
      let vector2 :=
        if 0 < config.organic.edgeAttraction ∧ 0 < config.canvasWidth ∧
            0 < config.canvasHeight then
          let ei := calculateEdgeInfluence prims current.x current.y
            config.canvasWidth config.canvasHeight config.margin
            config.organic.edgeAttraction
          let v : Point K := ⟨vector.x + ei.x, vector.y + ei.y⟩
          let newLen := prims.sqrt (v.x * v.x + v.y * v.y)
          if (1/1000) < newLen then (⟨v.x / newLen, v.y / newLen⟩ : Point K)
          else v
        else vector
      let next0 : Point K := ⟨current.x + direction * vector2.x *
        effectiveStep, current.y + direction * vector2.y * effectiveStep⟩
      let next :=
        match config.organic.wobbleNoise with
        | some wn =>
          if 0 < config.organic.wobble then
            let highFreqWobble := wn.noise2D
              (current.x * wobbleScale + direction * (stepIdx : K) * (1/10))
              (current.y * wobbleScale)
            let lowFreqWobble := wn.noise2D
              (current.x * wobbleScale * (1/5) +
                direction * (stepIdx : K) * (1/50))
              (current.y * wobbleScale * (1/5))
            let wobbleVal := highFreqWobble * (3/5) + lowFreqWobble * (2/5)
            let perpX := if direction = 1 then -vector2.y else vector2.y
            let perpY := if direction = 1 then vector2.x else -vector2.x
            let wobbleAmount := wobbleVal * config.organic.wobble *
              config.stepLength * 3
            (⟨next0.x + perpX * wobbleAmount, next0.y + perpY * wobbleAmount⟩ :
              Point K)
          else next0
        | none => next0
      if field.isInBounds next.x next.y config.margin = false then (next, true)
      else if skipCollisionCheck = false then
        let localSep := calculateSeparationWithConfig prims next.x next.y
          config.baseSeparation config.density
        if spatialGrid.hasNearby next.x next.y (localSep * (1/2)) then
          (next, true)
        else (next, false)
      else (next, false)

/-- The forward/backward stepping loop of `traceStreamlineVariable`. -/
def streamTraceGo (field : FlowField K) (prims : Prims K)
    (spatialGrid : SpatialGrid K) (config : TraceConfig K)
    (skipCollisionCheck : Bool) (direction : K) :
    Nat → Nat → Point K → List (Point K)
  | 0, _, _ => []
  | fuel + 1, i, current =>
    let r := computeStep field prims spatialGrid config skipCollisionCheck
      current direction i
    if r.2 then []
    else r.1 :: streamTraceGo field prims spatialGrid config
      skipCollisionCheck direction fuel (i + 1) r.1

/-- `traceStreamlineVariable(field, start, spatialGrid, config,
skipCollisionCheck)`. -/
def traceStreamlineVariable (field : FlowField K) (prims : Prims K)
    (start : Point K) (spatialGrid : SpatialGrid K) (config : TraceConfig K)
    (skipCollisionCheck : Bool) : FlowLine K :=
  let forwardPoints := start :: streamTraceGo field prims spatialGrid config
    skipCollisionCheck 1 config.maxSteps 0 start
  let backwardPoints := streamTraceGo field prims spatialGrid config
    skipCollisionCheck (-1) config.maxSteps 0 start
  ⟨backwardPoints.reverse ++ forwardPoints⟩

/-- A pending seed of the fill-mode queue (`{ point, priority }`). -/
structure SeedCandidate (K : Type) where
  point : Point K
  priority : K

instance : Inhabited (SeedCandidate K) := ⟨⟨⟨0, 0⟩, 0⟩⟩

/-- The per-accepted-line seed-candidate generation loop of
`generateStreamlines` (`for (i = 0; i < points.length - 1;
i += sampleInterval)`), threading the RNG through the conditional draws. -/
def seedGenLoop (prims : Prims K) (field : FlowField K) (margin
    baseSeparation : K) (densityCfg : DensityConfig K) (spacingVariation : K)
    (sampleInterval : Nat) (pts : List (Point K)) :
    Nat → Nat → List (SeedCandidate K) × Int → List (SeedCandidate K) × Int
  | 0, _, st => st
  | fuel + 1, i, (queue, s) =>
    if ¬ (i + 1 ≤ pts.length - 1) then (queue, s)
    else
      let skipDraw : Bool × Int :=
        if 0 < spacingVariation then
          let r := randStep (K := K) s
          (decide (r.1 < (1/5) * spacingVariation), r.2)
        else (false, s)
      if skipDraw.1 then
        seedGenLoop prims field margin baseSeparation densityCfg
          spacingVariation sampleInterval pts fuel (i + sampleInterval)
          (queue, skipDraw.2)
      else
        let s1 := skipDraw.2
        let p0 := pts.getD i ⟨0, 0⟩
        let p1 := pts.getD (min (i + 1) (pts.length - 1)) ⟨0, 0⟩
        let localSep := calculateSeparationWithConfig prims p0.x p0.y
          baseSeparation densityCfg
        let dx := p1.x - p0.x
        let dy := p1.y - p0.y
        let len := prims.sqrt (dx * dx + dy * dy)
        if len < 1/1000 then
          seedGenLoop prims field margin baseSeparation densityCfg
            spacingVariation sampleInterval pts fuel (i + sampleInterval)
            (queue, s1)
        else
          let nx0 := -dy / len
          let ny0 := dx / len
          let jitter : K × K × Int :=
            if 0 < spacingVariation then
              let r := randStep (K := K) s1
              let angleJitter := (r.1 - 1/2) * (1/2) * spacingVariation
              let c := prims.cos angleJitter
              let sn := prims.sin angleJitter
              (nx0 * c - ny0 * sn, nx0 * sn + ny0 * c, r.2)
            else (nx0, ny0, s1)
          let nx := jitter.1
          let ny := jitter.2.1
          let s2 := jitter.2.2
          let offsetMin : K := if 0 < spacingVariation then 3/10 else 1/2
          let offsetRange : K := if 0 < spacingVariation then 6/5 else 1/2
          let r3 := randStep (K := K) s2
          let offset := localSep * (offsetMin + r3.1 * offsetRange)
          let seed1 : Point K := ⟨p0.x + nx * offset, p0.y + ny * offset⟩
          let seed2 : Point K := ⟨p0.x - nx * offset, p0.y - ny * offset⟩
          let priority := baseSeparation / localSep
          let queue1 := if field.isInBounds seed1.x seed1.y margin then
            queue ++ [⟨seed1, priority⟩] else queue
          let queue2 := if field.isInBounds seed2.x seed2.y margin then
            queue1 ++ [⟨seed2, priority⟩] else queue1
          seedGenLoop prims field margin baseSeparation densityCfg
            spacingVariation sampleInterval pts fuel (i + sampleInterval)
            (queue2, r3.2)

/-- The occasional partial shuffle of the seed queue (`for (i = 0;
i < Math.min(20, seedQueue.length); i++)`).  An out-of-range `j` (only when
`random()` returns exactly 1) makes the source's destructuring swap write
`undefined` into the queue, and the next dequeue throws; the model leaves
the queue unchanged in that measure-zero case (a genuine no-op, injecting
nothing). -/
def queueShuffle : Nat → Nat → List (SeedCandidate K) × Int →
    List (SeedCandidate K) × Int
  | 0, _, st => st
  | fuel + 1, i, (q, s) =>
    if ¬ (i < min 20 q.length) then (q, s)
    else
      let r := randStep (K := K) s
      let j : Nat := (⌊r.1 * (q.length : K)⌋).toNat
      let next :=
        if j < q.length then
          let a := q.getD i default
          let b := q.getD j default
          (q.set i b).set j a
        else q
      queueShuffle fuel (i + 1) (next, r.2)

/-- The grid sampling after an accepted non-skip line: `for (i = 0;
i < points.length; i += gridSampleRate)` plus the final point. -/
def gridSampleAdd (grid : SpatialGrid K) (pts : List (Point K))
    (rate : Nat) : SpatialGrid K :=
  let g1 := ((List.range ((pts.length + rate - 1) / rate)).map
    (fun k => k * rate)).foldl
    (fun g idx => g.add (pts.getD idx ⟨0, 0⟩)) grid
  if 1 < pts.length then g1.add (pts.getD (pts.length - 1) ⟨0, 0⟩) else g1

/-- The seed-queue processing `while` loop of `generateStreamlines`.  State:
emitted lines, pending queue, proximity grid, RNG state. -/
def streamlinesLoop (field : FlowField K) (prims : Prims K) (maxLines
    minLineLength : Nat) (smoothing baseSeparation spacingVariation : K)
    (traceCfg : TraceConfig K) :
    Nat →
    List (FlowLine K) × List (SeedCandidate K) × SpatialGrid K × Int →
    List (FlowLine K) × List (SeedCandidate K) × SpatialGrid K × Int
  | 0, st => st
  | fuel + 1, (lines, queue, grid, s) =>
    if queue.length = 0 ∨ ¬ (lines.length < maxLines) then
      (lines, queue, grid, s)
    else
      let seedPoint := (queue.headI).point
      let rest := queue.tail
      let effectiveSep := calculateSeparationWithConfig prims seedPoint.x
        seedPoint.y baseSeparation traceCfg.density
      let densityRel := effectiveSep / baseSeparation
      let skipCheck : Bool × Int :=
        if densityRel < 1/2 then (true, s)
        else if densityRel < 4/5 then
          let r := randStep (K := K) s
          (decide ((1/2 : K) < r.1), r.2)
        else (false, s)
      let s1 := skipCheck.2
      if skipCheck.1 = false ∧
          grid.hasNearby seedPoint.x seedPoint.y (effectiveSep * (1/2)) then
        streamlinesLoop field prims maxLines minLineLength smoothing
          baseSeparation spacingVariation traceCfg fuel (lines, rest, grid, s1)
      else
        let line := traceStreamlineVariable field prims seedPoint grid
          traceCfg skipCheck.1
        if line.points.length < minLineLength then
          streamlinesLoop field prims maxLines minLineLength smoothing
            baseSeparation spacingVariation traceCfg fuel
            (lines, rest, grid, s1)
        else
          let finalLine : FlowLine K :=
            if 0 < smoothing ∧ 2 < line.points.length then
              ⟨smoothLine line.points smoothing⟩
            else line
          let lines1 := lines ++ [finalLine]
          let grid1 :=
            if skipCheck.1 = false then
              gridSampleAdd grid finalLine.points
                (max 1 (⌊effectiveSep / 2⌋).toNat)
            else grid
          let denseSampling := decide (densityRel < 1/2)
          let sampleInterval : Nat :=
            if denseSampling then max 1 (finalLine.points.length / 50)
            else max 1 (finalLine.points.length / 20)
          let seeded := seedGenLoop prims field traceCfg.margin baseSeparation
            traceCfg.density spacingVariation sampleInterval finalLine.points
            (finalLine.points.length + 1) 0 (rest, s1)
          let queue1 := seeded.1
          let s2 := seeded.2
          let shuffled :=
            if lines1.length % 15 = 0 ∧ 20 < queue1.length then
              queueShuffle 21 0 (queue1, s2)
            else (queue1, s2)
          streamlinesLoop field prims maxLines minLineLength smoothing
            baseSeparation spacingVariation traceCfg fuel
            (lines1, shuffled.1, grid1, shuffled.2)

/-- `generateStreamlines(field, width, height, maxLines, stepLength,
maxSteps, margin, minLineLength, baseSeparation, smoothing, attractors?,
seed, densityPoints, densityVariation, densityNoiseScale, minSeparation,
organicWobble, velocityFadeout, edgeAttraction, lineFatigue,
spacingVariation)`.  The source `while` loop terminates because queue
insertions happen only for accepted lines (capped by `maxLines`); the loop
budget below over-approximates every such execution for the parameter
ranges the program uses, and every theorem proved about the loop holds for
all budgets. -/
def generateStreamlines (field : FlowField K) (prims : Prims K)
    (width height : K) (maxLines : Nat) (stepLength : K) (maxSteps : Nat)
    (margin : K) (minLineLength : Nat) (baseSeparation smoothing : K)
    (attractors : Option (List (Attractor K))) (seed : Int)
    (densityPoints : List (DensityPoint K))
    (densityVariation densityNoiseScale minSeparation organicWobble : K)
    (velocityFadeout : Bool)
    (edgeAttraction lineFatigue spacingVariation : K) : FlowLinesResult K :=
  let spatialGrid := SpatialGrid.create (max (minSeparation * (1/2)) 1)
  let densityConfig : DensityConfig K :=
    { points := densityPoints
      variation := densityVariation
      noiseScale := densityNoiseScale
      minSeparation := minSeparation
      noise := if 0 < densityVariation then
        some (prims.createNoise (seed + 12345)) else none }
  let organicConfig : OrganicConfig K :=
    { wobble := organicWobble
      velocityFadeout := velocityFadeout
      edgeAttraction := edgeAttraction
      wobbleNoise := if 0 < organicWobble then
        some (prims.createNoise (seed + 54321)) else none
      lineFatigue := lineFatigue
      fatigueNoise := if 0 < lineFatigue then
        some (prims.createNoise (seed + 99999)) else none }
  let traceConfig : TraceConfig K :=
    { stepLength := stepLength
      maxSteps := maxSteps
      margin := margin
      baseSeparation := baseSeparation
      attractors := attractors
      density := densityConfig
      organic := organicConfig
      canvasWidth := width
      canvasHeight := height }
  let initialSeeds : Nat := max 20 ((maxLines + 19) / 20)
  let seeded := ((List.range initialSeeds).foldl
    (fun (acc : List (SeedCandidate K) × Int) _ =>
      let rx := randStep (K := K) acc.2
      let ry := randStep (K := K) rx.2
      let x := margin + rx.1 * (width - 2 * margin)
      let y := margin + ry.1 * (height - 2 * margin)
      let sep := calculateSeparationWithConfig prims x y baseSeparation
        densityConfig
      (acc.1 ++ [⟨⟨x, y⟩, baseSeparation / sep⟩], ry.2))
    ([], seed))
  let queue0 := seeded.1 ++ densityPoints.map
    (fun dp => (⟨⟨dp.x, dp.y⟩, 10⟩ : SeedCandidate K))
  let queue1 := queue0.mergeSort
    (fun a b => decide (b.priority ≤ a.priority))
  let res := streamlinesLoop field prims maxLines minLineLength smoothing
    baseSeparation spacingVariation traceConfig
    (initialSeeds + densityPoints.length + maxLines * 100000 + 1)
    ([], queue1, spatialGrid, seeded.2)
  ⟨res.1, width, height, seed⟩

/-- `interface Agent`. -/
structure Agent (K : Type) where
  id : Nat
  position : Point K
  velocity : Point K
  energy : K
  maxEnergy : K
  energyDecayRate : K
  trail : List (Point K)
  wanderStrength : K
  speedMultiplier : K
  clusterAffinity : K
  isAlive : Bool
  stepsAlive : Nat

/-- `interface SwarmConfig`. -/
structure SwarmConfig (K : Type) where
  initialAgentCount : Nat
  maxAgents : Nat
  maxLinesOutput : Nat
  spawnClusterBias : K
  childSpawnRate : K
  childSpawnDistance : K
  baseStepLength : K
  flowFieldInfluence : K
  noiseWanderScale : K
  baseEnergy : K
  energyVariation : K
  lowEnergySlowdown : Bool
  clusterRadius : K
  clusterAttraction : K
  densityNoise : Option (Noise K)
  densityNoiseScale : K
  spawnDensityBias : K
  voidThreshold : K
  voidRepulsion : K
  formNoise : Option (Noise K)
  formNoiseScale : K
  formInfluence : K
  wanderNoise : Option (Noise K)
  width : K
  height : K
  margin : K
  minLineLength : Nat

/-- `getDensityValue(x, y, config)`. -/
def getDensityValue (x y : K) (config : SwarmConfig K) : K :=
  match config.densityNoise with
  | none => 0
  | some n => n.fbm (x * config.densityNoiseScale)
      (y * config.densityNoiseScale) 4 (1/2) 2

/-- The position-finding `while (attempts < maxAttempts)` loop of
`trySpawnAgent`; returns the spawned agent (if any) and the RNG state. -/
def trySpawnAgentGo (config : SwarmConfig K) (id : Nat)
    (field : FlowField K) (prims : Prims K) (parent : Option (Agent K)) :
    Nat → Int → Option (Agent K) × Int
  | 0, s => (none, s)
  | attemptsLeft + 1, s =>
    let pos : Point K × Int :=
      match parent with
      | some par =>
        let perpX := -par.velocity.y
        let perpY := par.velocity.x
        let rside := randStep (K := K) s
        let side : K := if (1/2 : K) < rside.1 then 1 else -1
        let rdist := randStep (K := K) rside.2
        let dist := config.childSpawnDistance * (1/2 + rdist.1)
        (⟨par.position.x + perpX * dist * side,
          par.position.y + perpY * dist * side⟩, rdist.2)
      | none =>
        let rx := randStep (K := K) s
        let ry := randStep (K := K) rx.2
        (⟨config.margin + rx.1 * (config.width - 2 * config.margin),
          config.margin + ry.1 * (config.height - 2 * config.margin)⟩, ry.2)
    let x := pos.1.x
    let y := pos.1.y
    let s1 := pos.2
    if field.isInBounds x y config.margin = false then
      trySpawnAgentGo config id field prims parent attemptsLeft s1
    else
      let densityVal := getDensityValue x y config
      if densityVal < config.voidThreshold then
        trySpawnAgentGo config id field prims parent attemptsLeft s1
      else
        let spawnProb := prims.pow ((densityVal + 1) * (1/2))
          (2 - config.spawnClusterBias * (3/2))
        let rprob := randStep (K := K) s1
        if spawnProb < rprob.1 ∧ parent.isNone then
          trySpawnAgentGo config id field prims parent attemptsLeft rprob.2
        else
          let energyMult := 1/2 + (densityVal + 1) * (1/2)
          let re := randStep (K := K) rprob.2
          let baseEnergy := config.baseEnergy *
            (1 - config.energyVariation * (1/2) +
              re.1 * config.energyVariation)
          let maxEnergy := baseEnergy * energyMult
          let rw := randStep (K := K) re.2
          let rs := randStep (K := K) rw.2
          let rc := randStep (K := K) rs.2
          (some
            { id := id
              position := ⟨x, y⟩
              velocity := ⟨0, 0⟩
              energy := maxEnergy
              maxEnergy := maxEnergy
              energyDecayRate := 1
              trail := [⟨x, y⟩]
              wanderStrength := 1/5 + rw.1 * (3/5)
              speedMultiplier := 7/10 + rs.1 * (3/5)
              clusterAffinity := 3/10 + rc.1 * (2/5)
              isAlive := true
              stepsAlive := 0 }, rc.2)

/-- `trySpawnAgent(config, random, id, field, parent)` (`maxAttempts = 50`).
-/
def trySpawnAgent (config : SwarmConfig K) (id : Nat) (field : FlowField K)
    (prims : Prims K) (parent : Option (Agent K)) (s : Int) :
    Option (Agent K) × Int :=
  trySpawnAgentGo config id field prims parent 50 s

/-- `updateSwarmAgent(agent, field, config, allAgents, random, attractors?)`:
move one agent one tick (the source's `random` parameter is unused). -/
def updateSwarmAgent (agent : Agent K) (field : FlowField K)
    (prims : Prims K) (config : SwarmConfig K) (allAgents : List (Agent K))
    (attractors : Option (List (Attractor K))) : Agent K :=
  let dir0 := field.getVector prims agent.position.x agent.position.y
    attractors
  let dir1 :=
    match config.wanderNoise with
    | some wn =>
      let wanderAngle := wn.noise2D
        (agent.position.x * config.noiseWanderScale + (agent.id : K) * 100)
        (agent.position.y * config.noiseWanderScale) * jsPI K *
        agent.wanderStrength
      let c := prims.cos wanderAngle
      let sn := prims.sin wanderAngle
      (⟨dir0.x * c - dir0.y * sn, dir0.x * sn + dir0.y * c⟩ : Point K)
    | none => dir0
  let dir2 :=
    if 0 < config.clusterAttraction ∧ 0 < agent.clusterAffinity then
      let acc := allAgents.foldl
        (fun (a : K × K × Nat) other =>
          if other.isAlive = false ∨ other.id = agent.id then a
          else
            let dx := other.position.x - agent.position.x
            let dy := other.position.y - agent.position.y
            let dist := prims.sqrt (dx * dx + dy * dy)
            if dist < config.clusterRadius ∧ (1/1000 : K) < dist then
              let weight := 1 - dist / config.clusterRadius
              (a.1 + dx / dist * weight, a.2.1 + dy / dist * weight,
                a.2.2 + 1)
            else a)
        (0, 0, 0)
      if 0 < acc.2.2 then
        let clusterX := acc.1 / (acc.2.2 : K)
        let clusterY := acc.2.1 / (acc.2.2 : K)
        let strength := config.clusterAttraction * agent.clusterAffinity
        (⟨dir1.x * (1 - strength) + clusterX * strength,
          dir1.y * (1 - strength) + clusterY * strength⟩ : Point K)
      else dir1
    else dir1
  let dir3 :=
    match config.formNoise with
    | some fn =>
      if 0 < config.formInfluence then
        let eps : K := 5
        let nx := fn.noise2D (agent.position.x * config.formNoiseScale)
          (agent.position.y * config.formNoiseScale)
        let nxr := fn.noise2D
          ((agent.position.x + eps) * config.formNoiseScale)
          (agent.position.y * config.formNoiseScale)
        let nyu := fn.noise2D (agent.position.x * config.formNoiseScale)
          ((agent.position.y + eps) * config.formNoiseScale)
        let gradX := (nxr - nx) / eps
        let gradY := (nyu - nx) / eps
        let curlX := -gradY
        let curlY := gradX
        (⟨dir2.x * (1 - config.formInfluence) + curlX * config.formInfluence,
          dir2.y * (1 - config.formInfluence) + curlY * config.formInfluence⟩ :
          Point K)
      else dir2
    | none => dir2
  let dir4 :=
    match config.densityNoise with
    | some _ =>
      if 0 < config.voidRepulsion then
        let densityVal := getDensityValue agent.position.x agent.position.y
          config
        if densityVal < config.voidThreshold + 1/5 then
          let eps : K := 5
          let dRight := getDensityValue (agent.position.x + eps)
            agent.position.y config
          let dUp := getDensityValue agent.position.x
            (agent.position.y + eps) config
          let gradX := (dRight - densityVal) / eps
          let gradY := (dUp - densityVal) / eps
          let repulsion := config.voidRepulsion *
            (1 - (densityVal - config.voidThreshold) / (1/5))
          (⟨dir3.x + gradX * repulsion * 2, dir3.y + gradY * repulsion * 2⟩ :
            Point K)
        else dir3
      else dir3
    | none => dir3
  let len := prims.sqrt (dir4.x * dir4.x + dir4.y * dir4.y)
  let dir5 : Point K :=
    if (1/1000 : K) < len then ⟨dir4.x / len, dir4.y / len⟩ else dir4
  let speed0 := config.baseStepLength * agent.speedMultiplier
  let speed :=
    if config.lowEnergySlowdown then
      let energyFrac := agent.energy / agent.maxEnergy
      speed0 * (3/10 + energyFrac * (7/10))
    else speed0
  let newPos : Point K := ⟨agent.position.x + dir5.x * speed,
    agent.position.y + dir5.y * speed⟩
  { agent with
    velocity := dir5
    position := newPos
    trail := agent.trail ++ [newPos]
    energy := agent.energy - agent.energyDecayRate
    stepsAlive := agent.stepsAlive + 1 }

/-- `shouldAgentTerminate(agent, config, field)`. -/
def shouldAgentTerminate (agent : Agent K) (config : SwarmConfig K)
    (field : FlowField K) : Bool :=
  decide (agent.energy ≤ 0) ||
  (field.isInBounds agent.position.x agent.position.y config.margin = false) ||
  decide (getDensityValue agent.position.x agent.position.y config <
    config.voidThreshold - 1/10) ||
  decide (5000 < agent.trail.length)

/-- `spawnChildAgent(parent, config, random, id, field)`: returns the child
(if any), the (possibly energy-drained) parent, and the RNG state.  The
parent loses energy only when a child is actually produced, as in the
source where the subtraction sits after the early `return null` checks. -/
def spawnChildAgent (parent : Agent K) (config : SwarmConfig K) (id : Nat)
    (field : FlowField K) (s : Int) :
    Option (Agent K) × Agent K × Int :=
  let perpX := -parent.velocity.y
  let perpY := parent.velocity.x
  let rside := randStep (K := K) s
  let side : K := if (1/2 : K) < rside.1 then 1 else -1
  let rdist := randStep (K := K) rside.2
  let dist := config.childSpawnDistance * (1/2 + rdist.1 * (1/2))
  let x := parent.position.x + perpX * dist * side
  let y := parent.position.y + perpY * dist * side
  if field.isInBounds x y config.margin = false then (none, parent, rdist.2)
  else
    let densityVal := getDensityValue x y config
    if densityVal < config.voidThreshold then (none, parent, rdist.2)
    else
      let re := randStep (K := K) rdist.2
      let childEnergy := parent.energy * (2/5 + re.1 * (3/10))
      let parent2 := { parent with
        energy := parent.energy - childEnergy * (3/10) }
      let rw := randStep (K := K) re.2
      let rs2 := randStep (K := K) rw.2
      let rc := randStep (K := K) rs2.2
      (some
        { id := id
          position := ⟨x, y⟩
          velocity := parent.velocity
          energy := childEnergy
          maxEnergy := childEnergy
          energyDecayRate := parent.energyDecayRate
          trail := [⟨x, y⟩]
          wanderStrength := parent.wanderStrength * (4/5 + rw.1 * (2/5))
          speedMultiplier := parent.speedMultiplier * (4/5 + rs2.1 * (2/5))
          clusterAffinity := parent.clusterAffinity * (4/5 + rc.1 * (2/5))
          isAlive := true
          stepsAlive := 0 }, parent2, rc.2)

/-- Mutable state of the swarm simulation: the agent array, emitted lines,
RNG state and the `nextId` counter. -/
structure SwarmState (K : Type) where
  agents : List (Agent K)
  completedLines : List (FlowLine K)
  rng : Int
  nextId : Nat

/-- The per-iteration `for (i = 0; i < agents.length; i++)` walk of
`generateSwarmLines`: agents appended mid-walk (children) are visited in the
same pass, exactly as the live `agents.length` bound does in the source. -/
def swarmTickFrom (field : FlowField K) (prims : Prims K)
    (config : SwarmConfig K) (attractors : Option (List (Attractor K))) :
    Nat → Nat → SwarmState K → SwarmState K
  | 0, _, st => st
  | fuel + 1, i, st =>
    if h : i < st.agents.length then
      let agent := st.agents.get ⟨i, h⟩
      if agent.isAlive = false then
        swarmTickFrom field prims config attractors fuel (i + 1) st
      else
        let agent1 := updateSwarmAgent agent field prims config st.agents
          attractors
        let agents1 := st.agents.set i agent1
        if shouldAgentTerminate agent1 config field then
          let agent2 := { agent1 with isAlive := false }
          let agents2 := agents1.set i agent2
          let lines1 :=
            if config.minLineLength ≤ agent2.trail.length then
              st.completedLines ++ [⟨agent2.trail⟩]
            else st.completedLines
          swarmTickFrom field prims config attractors fuel (i + 1)
            { agents := agents2, completedLines := lines1, rng := st.rng,
              nextId := st.nextId }
        else
          if agents1.length < config.maxAgents ∧
              agent1.maxEnergy * (3/10) < agent1.energy then
            let localDensity := getDensityValue agent1.position.x
              agent1.position.y config
            let spawnChance := config.childSpawnRate *
              (1/2 + localDensity * (1/2))
            let r := randStep (K := K) st.rng
            if r.1 < spawnChance * (1/10) then
              let res := spawnChildAgent agent1 config st.nextId field r.2
              match res.1 with
              | some child =>
                swarmTickFrom field prims config attractors fuel (i + 1)
                  { agents := (agents1.set i res.2.1) ++ [child],
                    completedLines := st.completedLines, rng := res.2.2,
                    nextId := st.nextId + 1 }
              | none =>
                swarmTickFrom field prims config attractors fuel (i + 1)
                  { agents := agents1, completedLines := st.completedLines,
                    rng := res.2.2, nextId := st.nextId + 1 }
            else
              swarmTickFrom field prims config attractors fuel (i + 1)
                { agents := agents1, completedLines := st.completedLines,
                  rng := r.2, nextId := st.nextId }
          else
            swarmTickFrom field prims config attractors fuel (i + 1)
              { agents := agents1, completedLines := st.completedLines,
                rng := st.rng, nextId := st.nextId }
    else st

/-- One full pass over the agent array (`updateSwarmAgent` + termination +
child spawning for every index).  The walk budget covers the worst-case
growth: the array never grows past `max(length, maxAgents)` in one pass. -/
def swarmTick (field : FlowField K) (prims : Prims K)
    (config : SwarmConfig K) (attractors : Option (List (Attractor K)))
    (st : SwarmState K) : SwarmState K :=
  swarmTickFrom field prims config attractors
    (st.agents.length + config.maxAgents + 1) 0 st

/-- The main `while` loop of `generateSwarmLines`: run ticks while some
agent is alive and the output cap is not reached, up to the iteration
budget. -/
def swarmLoop (field : FlowField K) (prims : Prims K)
    (config : SwarmConfig K) (attractors : Option (List (Attractor K))) :
    Nat → SwarmState K → SwarmState K
  | 0, st => st
  | fuel + 1, st =>
    if st.agents.any (fun a => a.isAlive) ∧
        st.completedLines.length < config.maxLinesOutput then
      swarmLoop field prims config attractors fuel
        (swarmTick field prims config attractors st)
    else st

/-- The number of loop-body executions performed by `swarmLoop` from a given
state and budget. -/
def swarmLoopCount (field : FlowField K) (prims : Prims K)
    (config : SwarmConfig K) (attractors : Option (List (Attractor K))) :
    Nat → SwarmState K → Nat
  | 0, _ => 0
  | fuel + 1, st =>
    if st.agents.any (fun a => a.isAlive) ∧
        st.completedLines.length < config.maxLinesOutput then
      swarmLoopCount field prims config attractors fuel
        (swarmTick field prims config attractors st) + 1
    else 0

/-- The initial-population loop of `generateSwarmLines`; `nextId++` is
consumed per attempt whether or not the spawn succeeds. -/
def swarmInitStep (field : FlowField K) (prims : Prims K)
    (config : SwarmConfig K) (acc : List (Agent K) × Int × Nat) (_ : Nat) :
    List (Agent K) × Int × Nat :=
  let res := trySpawnAgent config acc.2.2 field prims none acc.2.1
  match res.1 with
  | some agent => (acc.1 ++ [agent], res.2, acc.2.2 + 1)
  | none => (acc.1, res.2, acc.2.2 + 1)

/-- The initial-population loop of `generateSwarmLines` proper. -/
def swarmInitialAgents (field : FlowField K) (prims : Prims K)
    (config : SwarmConfig K) (seed : Int) : List (Agent K) × Int × Nat :=
  (List.range config.initialAgentCount).foldl (swarmInitStep field prims config)
    ([], seed, 0)

/-- The full simulation behind `generateSwarmLines`, exposing the final
`SwarmState` (used to state population invariants). -/
def swarmSimulate (field : FlowField K) (prims : Prims K) (width height : K)
    (maxLines : Nat) (stepLength : K) (maxSteps : Nat) (margin : K)
    (minLineLength : Nat) (seed : Int)
    (attractors : Option (List (Attractor K))) (agentCount : Nat)
    (clusterBias childSpawnRate flowInfluence clusterAttraction
      formInfluence voidSize energyVariation : K) :
    SwarmConfig K × SwarmState K :=
  let config : SwarmConfig K :=
    { initialAgentCount := agentCount
      maxAgents := agentCount * 10
      maxLinesOutput := maxLines
      spawnClusterBias := clusterBias
      childSpawnRate := childSpawnRate
      childSpawnDistance := stepLength * 5
      baseStepLength := stepLength
      flowFieldInfluence := flowInfluence
      noiseWanderScale := 1/100
      baseEnergy := (maxSteps : K) * (1/2)
      energyVariation := energyVariation
      lowEnergySlowdown := true
      clusterRadius := min width height * (1/10)
      clusterAttraction := clusterAttraction
      densityNoise := some (prims.createNoise (seed + 11111))
      densityNoiseScale := 3/1000
      spawnDensityBias := clusterBias
      voidThreshold := -(1/5) - voidSize * (3/5)
      voidRepulsion := voidSize
      formNoise := some (prims.createNoise (seed + 22222))
      formNoiseScale := 5/1000
      formInfluence := formInfluence
      wanderNoise := some (prims.createNoise (seed + 33333))
      width := width
      height := height
      margin := margin
      minLineLength := minLineLength }
  let init := swarmInitialAgents field prims config seed
  let st0 : SwarmState K :=
    { agents := init.1, completedLines := [], rng := init.2.1,
      nextId := init.2.2 }
  (config, swarmLoop field prims config attractors (maxSteps * 100) st0)

/-- The final remaining-trail collection step of `generateSwarmLines` (one
agent). -/
def swarmCollectStep (minLineLength : Nat) (ls : List (FlowLine K))
    (a : Agent K) : List (FlowLine K) :=
  if minLineLength ≤ a.trail.length then ls ++ [⟨a.trail⟩] else ls

/-- `generateSwarmLines(...)`: run the simulation, then collect the trails
of the remaining agents.  The source guards this final collection with
`!completedLines.some(l => l.points === agent.trail)` — a JS reference
comparison that never holds because lines are pushed as `[...trail]`
copies — so the final loop appends unconditionally (duplicating the trails
of already-dead agents that met the length bar). -/
def generateSwarmLines (field : FlowField K) (prims : Prims K)
    (width height : K) (maxLines : Nat) (stepLength : K) (maxSteps : Nat)
    (margin : K) (minLineLength : Nat) (seed : Int)
    (attractors : Option (List (Attractor K))) (agentCount : Nat)
    (clusterBias childSpawnRate flowInfluence clusterAttraction
      formInfluence voidSize energyVariation : K) : FlowLinesResult K :=
  let res := swarmSimulate field prims width height maxLines stepLength
    maxSteps margin minLineLength seed attractors agentCount clusterBias
    childSpawnRate flowInfluence clusterAttraction formInfluence voidSize
    energyVariation
  let collected := res.2.agents.foldl (swarmCollectStep res.1.minLineLength)
    res.2.completedLines
  ⟨collected, width, height, seed⟩

/-- The density-weighted seed-collection loop of `generateFormHatching`
(`for (i = 0; i < totalSeeds && seeds.length < maxLines * 3; i++)`). -/
def hatchSeedsLoop (prims : Prims K) (densityNoise : Noise K)
    (width height margin formScale formContrast : K) (maxLines : Nat) :
    Nat → List (Point K) × Int → List (Point K) × Int
  | 0, st => st
  | fuel + 1, (seeds, s) =>
    if ¬ (seeds.length < maxLines * 3) then (seeds, s)
    else
      let rx := randStep (K := K) s
      let ry := randStep (K := K) rx.2
      let x := margin + rx.1 * (width - 2 * margin)
      let y := margin + ry.1 * (height - 2 * margin)
      let density := densityNoise.fbm (x * formScale * (1/2))
        (y * formScale * (1/2)) 4 (1/2) 2
      let contrastDensity := jsSign density *
        prims.pow |density| (1 / (1 + formContrast))
      let spawnProb := prims.pow ((contrastDensity + 1) * (1/2))
        (2 - formContrast * (3/2))
      let rp := randStep (K := K) ry.2
      if rp.1 < spawnProb then
        hatchSeedsLoop prims densityNoise width height margin formScale
          formContrast maxLines fuel (seeds ++ [⟨x, y⟩], rp.2)
      else
        hatchSeedsLoop prims densityNoise width height margin formScale
          formContrast maxLines fuel (seeds, rp.2)

/-- One step's candidate next position for the contour-following loop of
`generateFormHatching`: form-field gradient direction (or a random angle on
flat gradient), optional angle variation and wobble. -/
def hatchNextPos (prims : Prims K) (formNoise wobbleNoise
    angleNoise : Noise K) (stepLength formScale angleVariation wobble : K)
    (step : Nat) (x y : K) (s : Int) : (K × K) × Int :=
  let eps : K := 2
  let formHere := formNoise.fbm (x * formScale) (y * formScale) 3 (1/2) 2
  let formRight := formNoise.fbm ((x + eps) * formScale) (y * formScale)
    3 (1/2) 2
  let formUp := formNoise.fbm (x * formScale) ((y + eps) * formScale)
    3 (1/2) 2
  let gradX := (formRight - formHere) / eps
  let gradY := (formUp - formHere) / eps
  let dirX0 := -gradY
  let dirY0 := gradX
  let len := prims.sqrt (dirX0 * dirX0 + dirY0 * dirY0)
  let dirPick : K × K × Int :=
    if (1/1000 : K) < len then (dirX0 / len, dirY0 / len, s)
    else
      let r := randStep (K := K) s
      let angle := r.1 * jsPI K * 2
      (prims.cos angle, prims.sin angle, r.2)
  let s1 := dirPick.2.2
  let dir1 : K × K :=
    if 0 < angleVariation then
      let angleOffset := angleNoise.noise2D
        (x * formScale * 2 + (step : K) * (1/10)) (y * formScale * 2) *
        jsPI K * (1/2) * angleVariation
      let c := prims.cos angleOffset
      let sn := prims.sin angleOffset
      (dirPick.1 * c - dirPick.2.1 * sn, dirPick.1 * sn + dirPick.2.1 * c)
    else (dirPick.1, dirPick.2.1)
  let next0 : K × K := (x + dir1.1 * stepLength, y + dir1.2 * stepLength)
  let next : K × K :=
    if 0 < wobble then
      let wobbleVal := wobbleNoise.noise2D
        (x * (1/50) + (step : K) * (1/10)) (y * (1/50))
      let perpX := -dir1.2
      let perpY := dir1.1
      let wobbleAmount := wobbleVal * wobble * stepLength * 2
      (next0.1 + perpX * wobbleAmount, next0.2 + perpY * wobbleAmount)
    else next0
  (next, s1)

/-- The contour-following step loop of `generateFormHatching` for one seed:
state is the current position, accumulated trail and the RNG.  Both bounds
comparisons are the source's closed ones (`<` / `>`). -/
def hatchTraceGo (prims : Prims K) (formNoise densityNoise wobbleNoise
    angleNoise : Noise K) (width height margin stepLength formScale
    formContrast angleVariation wobble : K) :
    Nat → Nat → K × K × List (Point K) × Int → K × K × List (Point K) × Int
  | 0, _, st => st
  | fuel + 1, step, (x, y, trail, s) =>
    let ns := hatchNextPos prims formNoise wobbleNoise angleNoise stepLength
      formScale angleVariation wobble step x y s
    let next := ns.1
    let s1 := ns.2
    if next.1 < margin ∨ width - margin < next.1 ∨ next.2 < margin ∨
        height - margin < next.2 then (x, y, trail, s1)
    else
      let x1 := next.1
      let y1 := next.2
      let trail1 := trail ++ [⟨x1, y1⟩]
      let localDensity := densityNoise.fbm (x1 * formScale * (1/2))
        (y1 * formScale * (1/2)) 4 (1/2) 2
      if localDensity < -(3/10) then
        let r := randStep (K := K) s1
        if r.1 < (1/10) * (1 + formContrast) then (x1, y1, trail1, r.2)
        else
          hatchTraceGo prims formNoise densityNoise wobbleNoise angleNoise
            width height margin stepLength formScale formContrast
            angleVariation wobble fuel (step + 1) (x1, y1, trail1, r.2)
      else
        hatchTraceGo prims formNoise densityNoise wobbleNoise angleNoise
          width height margin stepLength formScale formContrast
          angleVariation wobble fuel (step + 1) (x1, y1, trail1, s1)

/-- The per-seed body of the `for (seedPoint of seeds)` loop of
`generateFormHatching`: once `maxLines` lines exist the `break` makes every
later seed a no-op, so the body guards on the line count. -/
def hatchTraceOne (prims : Prims K) (formNoise densityNoise lengthNoise
    wobbleNoise angleNoise : Noise K) (width height margin stepLength
    formScale formContrast lengthVariation angleVariation wobble : K)
    (maxLines maxSteps minLineLength : Nat)
    (acc : List (FlowLine K) × Int) (seedPoint : Point K) :
    List (FlowLine K) × Int :=
  if ¬ (acc.1.length < maxLines) then acc
  else
    let baseLengthNoise := lengthNoise.noise2D (seedPoint.x * formScale)
      (seedPoint.y * formScale)
    let rl := randStep (K := K) acc.2
    let lengthMult := 3/10 + (baseLengthNoise + 1) * (1/2) *
      (1 - lengthVariation) + rl.1 * lengthVariation
    let targetSteps : Nat := (⌊(maxSteps : K) * lengthMult⌋).toNat
    let res := hatchTraceGo prims formNoise densityNoise wobbleNoise
      angleNoise width height margin stepLength formScale formContrast
      angleVariation wobble targetSteps 0
      (seedPoint.x, seedPoint.y, [seedPoint], rl.2)
    let trail := res.2.2.1
    if minLineLength ≤ trail.length then
      (acc.1 ++ [⟨trail⟩], res.2.2.2)
    else (acc.1, res.2.2.2)

/-- `generateFormHatching(width, height, maxLines, stepLength, maxSteps,
margin, minLineLength, seed, formScale, formContrast, hatchDensity,
lengthVariation, angleVariation, overlap, wobble)` (the `overlap` parameter
is accepted but unused, as in the source). -/
def generateFormHatching (prims : Prims K) (width height : K)
    (maxLines : Nat) (stepLength : K) (maxSteps : Nat) (margin : K)
    (minLineLength : Nat) (seed : Int)
    (formScale formContrast hatchDensity lengthVariation angleVariation
      overlap wobble : K) : FlowLinesResult K :=
  let formNoise := prims.createNoise seed
  let densityNoise := prims.createNoise (seed + 1111)
  let lengthNoise := prims.createNoise (seed + 2222)
  let wobbleNoise := prims.createNoise (seed + 3333)
  let angleNoise := prims.createNoise (seed + 4444)
  let seedMultiplier := 5 + hatchDensity * 10
  let totalSeeds : Nat := (⌊(maxLines : K) * seedMultiplier⌋).toNat
  let seedsRes := hatchSeedsLoop prims densityNoise width height margin
    formScale formContrast maxLines totalSeeds ([], seed)
  let traced := seedsRes.1.foldl
    (hatchTraceOne prims formNoise densityNoise lengthNoise wobbleNoise
      angleNoise width height margin stepLength formScale formContrast
      lengthVariation angleVariation wobble maxLines maxSteps minLineLength)
    ([], seedsRes.2)
  ⟨traced.1, width, height, seed⟩

/-- The basic/bidirectional per-start loop of `generateFlowLines`: skip
starts near existing lines, trace, smooth, and keep lines meeting
`minLineLength` (feeding their points into the separation grid). -/
def basicLineStep (field : FlowField K) (prims : Prims K) (stepLength : K)
    (maxSteps : Nat) (margin : K) (attractors : Option (List (Attractor K)))
    (separationDistance smoothing : K) (minLineLength : Nat)
    (bidirectional : Bool)
    (acc : List (FlowLine K) × Option (SpatialGrid K)) (start : Point K) :
    List (FlowLine K) × Option (SpatialGrid K) :=
  let skip := match acc.2 with
    | some g => g.hasNearby start.x start.y separationDistance
    | none => false
  if skip then acc
  else
    let line :=
      if bidirectional then
        traceLineBidirectional field prims start stepLength maxSteps
          margin attractors acc.2 separationDistance
      else
        traceLine field prims start stepLength maxSteps margin attractors
          acc.2 separationDistance
    let line2 : FlowLine K :=
      if 0 < smoothing ∧ 2 < line.points.length then
        ⟨smoothLine line.points smoothing⟩
      else line
    if minLineLength ≤ line2.points.length then
      (acc.1 ++ [line2],
        match acc.2 with
        | some g => some (g.addLine line2.points)
        | none => none)
    else acc

/-- The basic/bidirectional per-start loop of `generateFlowLines`. -/
def basicLinesLoop (field : FlowField K) (prims : Prims K) (stepLength : K)
    (maxSteps : Nat) (margin : K) (attractors : Option (List (Attractor K)))
    (separationDistance smoothing : K) (minLineLength : Nat)
    (bidirectional : Bool) (starts : List (Point K))
    (grid0 : Option (SpatialGrid K)) :
    List (FlowLine K) × Option (SpatialGrid K) :=
  starts.foldl
    (basicLineStep field prims stepLength maxSteps margin attractors
      separationDistance smoothing minLineLength bidirectional)
    ([], grid0)

/-- `generateFlowLines(options)`: resolve defaults, build the field, and
dispatch to form hatching, swarm, fill, or the basic/bidirectional path.
`extRandom` supplies the value of `Math.floor(Math.random() * 1000000)`
drawn when no seed is configured; it is unused whenever `options.seed` is
present. -/
def generateFlowLines (prims : Prims K) (options : FlowLinesOptions K)
    (extRandom : Int) : FlowLinesResult K :=
  let width := options.width
  let height := options.height
  let lineCount := options.lineCount
  let stepLength := options.stepLength.getD 2
  let maxSteps := options.maxSteps.getD 500
  let margin := options.margin.getD 20
  let minLineLength := options.minLineLength.getD 10
  let fieldResolution := options.fieldResolution.getD 10
  let seed := options.seed.getD extRandom
  let smoothing := options.smoothing.getD 0
  let separationDistance := options.separationDistance.getD 0
  let bidirectional := options.bidirectional.getD false
  let densityPoints := options.densityPoints.getD []
  let densityVariation := options.densityVariation.getD 0
  let densityNoiseScale := options.densityNoiseScale.getD (3/1000)
  let minSeparation := options.minSeparation.getD 1
  let evenDistribution := options.evenDistribution.getD false
  let fillMode := options.fillMode.getD false
  let organicWobble := options.organicWobble.getD 0
  let velocityFadeout := options.velocityFadeout.getD false
  let edgeAttraction := options.edgeAttraction.getD 0
  let lineFatigue := options.lineFatigue.getD 0
  let spacingVariation := options.spacingVariation.getD 0
  let swarmMode := options.swarmMode.getD false
  let swarmAgentCount := options.swarmAgentCount.getD 300
  let swarmClusterBias := options.swarmClusterBias.getD (3/5)
  let swarmChildSpawnRate := options.swarmChildSpawnRate.getD (3/10)
  let swarmFlowInfluence := options.swarmFlowInfluence.getD (7/10)
  let swarmClusterAttraction := options.swarmClusterAttraction.getD (3/5)
  let swarmFormInfluence := options.swarmFormInfluence.getD (3/5)
  let swarmVoidSize := options.swarmVoidSize.getD (1/2)
  let swarmEnergyVariation := options.swarmEnergyVariation.getD (3/5)
  let formHatchingMode := options.formHatchingMode.getD false
  let formScale := options.formScale.getD (3/1000)
  let formContrast := options.formContrast.getD (4/5)
  let hatchDensity := options.hatchDensity.getD 1
  let hatchLengthVariation := options.hatchLengthVariation.getD (3/5)
  let hatchAngleVariation := options.hatchAngleVariation.getD (3/10)
  let hatchOverlap := options.hatchOverlap.getD (4/5)
  let field := mkFlowField prims
    { width := width
      height := height
      resolution := fieldResolution
      seed := seed
      noiseScale := options.noiseScale
      octaves := options.octaves
      persistence := options.persistence
      lacunarity := options.lacunarity
      fieldMode := options.fieldMode
      spiralStrength := options.spiralStrength
      warpStrength := options.warpStrength }
  if formHatchingMode then
    generateFormHatching prims width height lineCount stepLength maxSteps
      margin minLineLength seed formScale formContrast hatchDensity
      hatchLengthVariation hatchAngleVariation hatchOverlap organicWobble
  else if swarmMode then
    generateSwarmLines field prims width height lineCount stepLength
      maxSteps margin minLineLength seed options.attractors swarmAgentCount
      swarmClusterBias swarmChildSpawnRate swarmFlowInfluence
      swarmClusterAttraction swarmFormInfluence swarmVoidSize
      swarmEnergyVariation
  else if fillMode ∧ 0 < separationDistance then
    generateStreamlines field prims width height lineCount stepLength
      maxSteps margin minLineLength separationDistance smoothing
      options.attractors seed densityPoints densityVariation
      densityNoiseScale minSeparation organicWobble velocityFadeout
      edgeAttraction lineFatigue spacingVariation
  else
    let grid0 : Option (SpatialGrid K) :=
      if 0 < separationDistance then
        some (SpatialGrid.create separationDistance)
      else none
    let starts : List (Point K) :=
      match options.startPoints with
      | some ps => ps
      | none =>
        if evenDistribution then
          generatePoissonDiskPoints prims width height lineCount margin seed
        else
          generateStartPoints width height lineCount margin seed
    let res := basicLinesLoop field prims stepLength maxSteps margin
      options.attractors separationDistance smoothing minLineLength
      bidirectional starts grid0
    ⟨res.1, width, height, seed⟩

/-- `interface SVGOptions` of `svg.ts`. -/
structure SVGOptions (K : Type) where
  strokeColor : Option String := none
  strokeWidth : Option K := none
  backgroundColor : Option String := none
  includeBackground : Option Bool := none
  precision : Option Nat := none
  optimizePaths : Option Bool := none

/-- Zero-padded decimal digits for the fractional part of `toFixed`. -/
def padZeros (s : String) (p : Nat) : String :=
  String.mk (List.replicate (p - s.length) '0') ++ s

/-- `Number.prototype.toFixed(precision)` on exact field values: round to
the nearest multiple of `10^-precision`, ties toward the larger value
(ECMA-262 picks the larger candidate; the float-only `"-0.00"` artefact is
idealised away). -/
def toFixed (n : K) (precision : Nat) : String :=
  let scaled := n * ((10 : K) ^ precision)
  let m : Int := ⌊scaled + 1/2⌋
  let digits := m.natAbs
  let body :=
    if precision = 0 then toString digits
    else toString (digits / 10 ^ precision) ++ "." ++
      padZeros (toString (digits % 10 ^ precision)) precision
  if m < 0 then "-" ++ body else body

/-- `lineToPath(line, precision, optimize)`: `M`, quadratic segments through
midpoints, final `L`. -/
def lineToPath (prims : Prims K) (line : FlowLine K) (precision : Nat)
    (optimize : Bool) : String :=
  if line.points.length < 2 then ""
  else
    let points := if optimize then optimizePoints prims line.points (1/2)
      else line.points
    if points.length < 2 then ""
    else
      let d0 := "M" ++ toFixed (points.headI).x precision ++ "," ++
        toFixed (points.headI).y precision
      if points.length = 2 then
        d0 ++ " L" ++ toFixed (points.getD 1 ⟨0, 0⟩).x precision ++ "," ++
          toFixed (points.getD 1 ⟨0, 0⟩).y precision
      else
        let mid := ((List.range (points.length - 2)).map
          (fun k => k + 1)).foldl
          (fun dacc i =>
            let current := points.getD i ⟨0, 0⟩
            let next := points.getD (i + 1) ⟨0, 0⟩
            let midX := (current.x + next.x) / 2
            let midY := (current.y + next.y) / 2
            dacc ++ " Q" ++ toFixed current.x precision ++ "," ++
              toFixed current.y precision ++ " " ++
              toFixed midX precision ++ "," ++ toFixed midY precision)
          d0
        let lastPt := points.getD (points.length - 1) ⟨0, 0⟩
        mid ++ " L" ++ toFixed lastPt.x precision ++ "," ++
          toFixed lastPt.y precision

/-- `toSVG(result, options)`: stroke-only document, one path per retained
line, optional background rectangle. -/
def toSVG (prims : Prims K) (result : FlowLinesResult K)
    (options : SVGOptions K) : String :=
  let strokeColor := options.strokeColor.getD "#000000"
  let strokeWidth := options.strokeWidth.getD 1
  let backgroundColor := options.backgroundColor.getD "#ffffff"
  let includeBackground := options.includeBackground.getD false
  let precision := options.precision.getD 2
  let optimizePaths := options.optimizePaths.getD true
  let paths := (result.lines.map
    (fun l => lineToPath prims l precision optimizePaths)).filter
    (fun p => decide (0 < p.length))
  let nl := String.mk [Char.ofNat 10]
  let backgroundRect :=
    if includeBackground then
      "  <rect width=\"" ++ prims.numToString result.width ++
        "\" height=\"" ++ prims.numToString result.height ++
        "\" fill=\"" ++ backgroundColor ++ "\"/>" ++ nl
    else ""
  let pathElements := String.intercalate nl (paths.map (fun d =>
    "  <path d=\"" ++ d ++ "\" fill=\"none\" stroke=\"" ++ strokeColor ++
      "\" stroke-width=\"" ++ prims.numToString strokeWidth ++
      "\" stroke-linecap=\"round\" stroke-linejoin=\"round\"/>"))
  "<?xml version=\"1.0\" encoding=\"UTF-8\"?>" ++ nl ++
    "<svg xmlns=\"http://www.w3.org/2000/svg\" width=\"" ++
    prims.numToString result.width ++ "\" height=\"" ++
    prims.numToString result.height ++ "\" viewBox=\"0 0 " ++
    prims.numToString result.width ++ " " ++
    prims.numToString result.height ++ "\">" ++ nl ++
    backgroundRect ++ pathElements ++ nl ++ "</svg>"

end FlowLinesDefs

section C1

variable {K : Type} [LinearOrderedField K] [FloorRing K]

/-- **C1.** Determinism with an explicit seed: when `options.seed` is
supplied, `generateFlowLines` never consults the external `Math.random()`
draw, so two independent calls with the same options return the identical
`FlowLinesResult` (same lines, point coordinates, width, height, seed) in
every mode, and serialising each result with `toSVG` under the same style
options yields the identical string. -/
theorem generateFlowLines_deterministic (prims : Prims K)
    (options : FlowLinesOptions K) (s : Int) (hseed : options.seed = some s)
    (r₁ r₂ : Int) (style : SVGOptions K) :
    generateFlowLines prims options r₁ = generateFlowLines prims options r₂ ∧
      toSVG prims (generateFlowLines prims options r₁) style =
        toSVG prims (generateFlowLines prims options r₂) style := by
  have h : generateFlowLines prims options r₁ =
      generateFlowLines prims options r₂ := by
    unfold generateFlowLines
    rw [hseed]
    simp only [Option.getD_some]
  exact ⟨h, by rw [h]⟩

/-- A small concrete configuration with an explicit seed, for evaluating
the determinism theorem. -/
def c1Options : FlowLinesOptions ℚ :=
  { width := 100, height := 100, lineCount := 1, seed := some 42,
    maxSteps := some 0, minLineLength := some 1,
    startPoints := some [⟨30, 30⟩] }

theorem generateFlowLines_deterministic_witness :
    c1Options.seed = some 42 ∧
      (generateFlowLines qprims c1Options 0 =
          generateFlowLines qprims c1Options 1 ∧
        toSVG qprims (generateFlowLines qprims c1Options 0) {} =
          toSVG qprims (generateFlowLines qprims c1Options 1) {}) :=
  ⟨rfl, generateFlowLines_deterministic qprims c1Options 42 rfl 0 1 {}⟩

end C1

section C9

variable {K : Type} [LinearOrderedField K] [FloorRing K]

/-- A configuration whose caller-supplied start point `(0, 0)` lies outside
the margin box `[20, 80) x [20, 80)`; with `maxSteps = 0` and
`minLineLength = 1` the traced line is exactly `[(0, 0)]` and is emitted. -/
def c9Options : FlowLinesOptions ℚ :=
  { width := 100, height := 100, lineCount := 1, seed := some 0,
    maxSteps := some 0, minLineLength := some 1,
    startPoints := some [⟨0, 0⟩] }

/-- **C9.** `traceLine` always returns a line whose first point is the
supplied start point, and the forward half of `traceLineBidirectional`
likewise begins at the start point; the start point is never tested against
the bounds — only computed step points are — so with caller-supplied
`startPoints` and `minLineLength = 1` the generator emits a line whose first
point lies outside `[margin, dimension - margin)` (shown on a concrete
configuration). -/
theorem traceLine_head_is_start (field : FlowField K) (prims : Prims K)
    (start : Point K) (stepLength : K) (maxSteps : Nat) (margin : K)
    (attractors : Option (List (Attractor K)))
    (grid : Option (SpatialGrid K)) (sep : K) :
    ((traceLine field prims start stepLength maxSteps margin attractors
        grid sep).points.headI = start ∧
      ∃ bwd fwd,
        (traceLineBidirectional field prims start stepLength maxSteps margin
          attractors grid sep).points = bwd ++ start :: fwd) ∧
      ∃ l ∈ (generateFlowLines qprims c9Options 0).lines,
        l.points.headI = ⟨0, 0⟩ ∧
          ¬ ((20 : ℚ) ≤ l.points.headI.x ∧ l.points.headI.x < 100 - 20 ∧
            (20 : ℚ) ≤ l.points.headI.y ∧ l.points.headI.y < 100 - 20) := by
  refine ⟨⟨rfl,
    (traceLoopGo field prims (-1) stepLength margin attractors grid sep
      maxSteps start).reverse,
    traceLoopGo field prims 1 stepLength margin attractors grid sep
      maxSteps start, rfl⟩, ?_⟩
  have hres : (generateFlowLines qprims c9Options 0).lines =
      [⟨[⟨0, 0⟩]⟩] := by decide
  exact ⟨⟨[⟨0, 0⟩]⟩, by rw [hres]; exact List.mem_singleton.mpr rfl, rfl,
    by decide⟩

end C9

section C8

variable {K : Type} [LinearOrderedField K] [FloorRing K]

lemma swarmLoopCount_le (field : FlowField K) (prims : Prims K)
    (config : SwarmConfig K) (attractors : Option (List (Attractor K))) :
    ∀ fuel st, swarmLoopCount field prims config attractors fuel st ≤ fuel :=
  by
  intro fuel
  induction fuel with
  | zero => intro st; exact Nat.le_refl 0
  | succ n ih =>
    intro st
    simp only [swarmLoopCount]
    split
    · exact Nat.succ_le_succ (ih _)
    · exact Nat.zero_le _

/-- **C8.** The main simulation loop of `generateSwarmLines` terminates:
run with the source's iteration budget it executes at most
`maxSteps * 100` loop bodies, and it executes none (exits at once) from any
state in which no agent remains alive or the completed-line count has
reached the configured cap. -/
theorem generateSwarmLines_terminates (field : FlowField K) (prims : Prims K)
    (config : SwarmConfig K) (attractors : Option (List (Attractor K))) :
    (∀ (maxSteps : Nat) (st : SwarmState K),
        swarmLoopCount field prims config attractors (maxSteps * 100) st ≤
          maxSteps * 100) ∧
      ∀ (fuel : Nat) (st : SwarmState K),
        (st.agents.any (fun a => a.isAlive) = false ∨
          config.maxLinesOutput ≤ st.completedLines.length) →
        swarmLoopCount field prims config attractors fuel st = 0 := by
  constructor
  · intro ms st
    exact swarmLoopCount_le field prims config attractors (ms * 100) st
  · intro fuel st h
    cases fuel with
    | zero => rfl
    | succ n =>
      have hneg : ¬ (st.agents.any (fun a => a.isAlive) = true ∧
          st.completedLines.length < config.maxLinesOutput) := by
        rcases h with h | h
        · intro hc
          rw [h] at hc
          exact Bool.false_ne_true hc.1
        · intro hc
          exact absurd hc.2 (Nat.not_lt.mpr h)
      simp only [swarmLoopCount, if_neg hneg]

/-- A concrete flow field for evaluating the swarm theorems. -/
def c8Field : FlowField ℚ :=
  mkFlowField qprims { width := 50, height := 50, resolution := 10, seed := 0 }

/-- The swarm configuration the source derives for a run with
`swarmAgentCount = 0` on `c8Field`. -/
def c8Config : SwarmConfig ℚ :=
  (swarmSimulate c8Field qprims 50 50 5 2 1 20 1 0 none 0 0 0 0 0 0 0 0).1

theorem generateSwarmLines_terminates_witness :
    swarmLoopCount c8Field qprims c8Config none 3
      ⟨[], [], 0, 0⟩ = 0 :=
  (generateSwarmLines_terminates c8Field qprims c8Config none).2 3
    ⟨[], [], 0, 0⟩ (Or.inl rfl)

end C8

section C10

variable {K : Type} [LinearOrderedField K] [FloorRing K]

lemma swarmInitStep_length (field : FlowField K) (prims : Prims K)
    (config : SwarmConfig K) (acc : List (Agent K) × Int × Nat) (n : Nat) :
    (swarmInitStep field prims config acc n).1.length ≤ acc.1.length + 1 := by
  unfold swarmInitStep
  dsimp only
  split
  · simp
  · simp

lemma swarmInit_fold_length (field : FlowField K) (prims : Prims K)
    (config : SwarmConfig K) :
    ∀ (l : List Nat) (acc : List (Agent K) × Int × Nat),
      ((l.foldl (swarmInitStep field prims config) acc).1).length ≤
        acc.1.length + l.length := by
  intro l
  induction l with
  | nil => intro acc; simp
  | cons a t ih =>
    intro acc
    simp only [List.foldl_cons, List.length_cons]
    have h1 := ih (swarmInitStep field prims config acc a)
    have h2 := swarmInitStep_length field prims config acc a
    omega

lemma swarmInitialAgents_length (field : FlowField K) (prims : Prims K)
    (config : SwarmConfig K) (seed : Int) :
    (swarmInitialAgents field prims config seed).1.length ≤
      config.initialAgentCount := by
  unfold swarmInitialAgents
  have := swarmInit_fold_length field prims config
    (List.range config.initialAgentCount) ([], seed, 0)
  simpa using this

lemma swarmTickFrom_agents_le (field : FlowField K) (prims : Prims K)
    (config : SwarmConfig K) (attractors : Option (List (Attractor K))) :
    ∀ (fuel i : Nat) (st : SwarmState K),
      st.agents.length ≤ config.maxAgents →
      (swarmTickFrom field prims config attractors fuel i st).agents.length ≤
        config.maxAgents := by
  intro fuel
  induction fuel with
  | zero => intro i st h; exact h
  | succ n ih =>
    intro i st h
    simp only [swarmTickFrom]
    split
    · split
      · exact ih _ _ h
      · split
        · apply ih
          simpa [List.length_set] using h
        · split
          · next hgrow =>
            split
            · split
              · apply ih
                have hl := hgrow.1
                rw [List.length_set] at hl
                simp only [List.length_append, List.length_set,
                  List.length_cons, List.length_nil]
                omega
              · apply ih
                simpa [List.length_set] using h
            · apply ih
              simpa [List.length_set] using h
          · apply ih
            simpa [List.length_set] using h
    · exact h

lemma swarmLoop_agents_le (field : FlowField K) (prims : Prims K)
    (config : SwarmConfig K) (attractors : Option (List (Attractor K))) :
    ∀ (fuel : Nat) (st : SwarmState K),
      st.agents.length ≤ config.maxAgents →
      (swarmLoop field prims config attractors fuel st).agents.length ≤
        config.maxAgents := by
  intro fuel
  induction fuel with
  | zero => intro st h; exact h
  | succ n ih =>
    intro st h
    simp only [swarmLoop, swarmTick]
    split
    · exact ih _ (swarmTickFrom_agents_le field prims config attractors _ 0
        st h)
    · exact h

/-- **C10.** Swarm population bound: the configuration fixes
`maxAgents = swarmAgentCount * 10`, children are spawned only while the
agent array is strictly below `maxAgents`, and agents are never removed
from the array (termination only clears `isAlive`), so the final agent
array — the set of all Agent records ever created in the run — has length
at most `10 *` the initial agent count. -/
theorem swarm_population_bounded (field : FlowField K) (prims : Prims K)
    (width height : K) (maxLines : Nat) (stepLength : K) (maxSteps : Nat)
    (margin : K) (minLineLength : Nat) (seed : Int)
    (attractors : Option (List (Attractor K))) (agentCount : Nat)
    (clusterBias childSpawnRate flowInfluence clusterAttraction
      formInfluence voidSize energyVariation : K) :
    ((swarmSimulate field prims width height maxLines stepLength maxSteps
        margin minLineLength seed attractors agentCount clusterBias
        childSpawnRate flowInfluence clusterAttraction formInfluence
        voidSize energyVariation).1).maxAgents = agentCount * 10 ∧
      ((swarmSimulate field prims width height maxLines stepLength maxSteps
        margin minLineLength seed attractors agentCount clusterBias
        childSpawnRate flowInfluence clusterAttraction formInfluence
        voidSize energyVariation).2).agents.length ≤ agentCount * 10 := by
  constructor
  · rfl
  · simp only [swarmSimulate]
    apply swarmLoop_agents_le
    refine le_trans (swarmInitialAgents_length field prims _ seed) ?_
    show agentCount ≤ agentCount * 10
    omega

end C10

section C3Proof

variable {K : Type} [LinearOrderedField K] [FloorRing K]

lemma foldl_invariant {α β : Type} (P : β → Prop) (f : β → α → β)
    (hstep : ∀ b a, P b → P (f b a)) :
    ∀ (l : List α) (b : β), P b → P (l.foldl f b) := by
  intro l
  induction l with
  | nil => intro b hb; exact hb
  | cons a t ih => intro b hb; exact ih (f b a) (hstep b a hb)

lemma chaikinPairs_length :
    ∀ l : List (Point K), (chaikinPairs l).length = 2 * (l.length - 1)
  | [] => by simp [chaikinPairs]
  | [p] => by simp [chaikinPairs]
  | p :: q :: rest => by
    rw [chaikinPairs]
    have := chaikinPairs_length (q :: rest)
    simp only [List.length_cons] at this ⊢
    omega

lemma chaikinStep_length (points : List (Point K)) :
    points.length ≤ (chaikinStep points).length := by
  cases points with
  | nil => simp [chaikinStep]
  | cons p rest =>
    simp only [chaikinStep, List.length_cons, List.length_append,
      chaikinPairs_length, List.length_singleton]
    omega

lemma chaikinIter_length :
    ∀ (n : Nat) (l : List (Point K)), l.length ≤ (chaikinIter n l).length := by
  intro n
  induction n with
  | zero => intro l; exact Nat.le_refl _
  | succ m ih =>
    intro l
    exact le_trans (chaikinStep_length l) (ih (chaikinStep l))

lemma smoothLine_length (points : List (Point K)) (strength : K) :
    points.length ≤ (smoothLine points strength).length := by
  unfold smoothLine
  split
  · exact Nat.le_refl _
  · exact chaikinIter_length _ points

lemma mem_emit_ite (minLen : Nat) (base : List (FlowLine K))
    (L : FlowLine K) (c : Prop) [Decidable c]
    (hc : c → minLen ≤ L.points.length)
    (hacc : ∀ l ∈ base, minLen ≤ l.points.length) :
    ∀ l ∈ (if c then base ++ [L] else base), minLen ≤ l.points.length := by
  split
  · next h =>
    intro l hl
    rcases List.mem_append.mp hl with hm | hm
    · exact hacc l hm
    · rw [List.mem_singleton.mp hm]
      exact hc h
  · exact hacc

lemma basicLineStep_min (field : FlowField K) (prims : Prims K)
    (stepLength : K) (maxSteps : Nat) (margin : K)
    (attractors : Option (List (Attractor K)))
    (separationDistance smoothing : K) (minLineLength : Nat)
    (bidirectional : Bool) (acc : List (FlowLine K) × Option (SpatialGrid K))
    (start : Point K)
    (hacc : ∀ l ∈ acc.1, minLineLength ≤ l.points.length) :
    ∀ l ∈ (basicLineStep field prims stepLength maxSteps margin attractors
      separationDistance smoothing minLineLength bidirectional acc
      start).1, minLineLength ≤ l.points.length := by
  unfold basicLineStep
  dsimp only
  split
  · exact hacc
  · rw [apply_ite Prod.fst]
    dsimp only
    exact mem_emit_ite minLineLength acc.1 _ _ (fun h => h) hacc

lemma basicLinesLoop_min (field : FlowField K) (prims : Prims K)
    (stepLength : K) (maxSteps : Nat) (margin : K)
    (attractors : Option (List (Attractor K)))
    (separationDistance smoothing : K) (minLineLength : Nat)
    (bidirectional : Bool) (starts : List (Point K))
    (grid0 : Option (SpatialGrid K)) :
    ∀ l ∈ (basicLinesLoop field prims stepLength maxSteps margin attractors
      separationDistance smoothing minLineLength bidirectional starts
      grid0).1, minLineLength ≤ l.points.length := by
  unfold basicLinesLoop
  exact foldl_invariant
    (fun acc => ∀ l ∈ acc.1, minLineLength ≤ l.points.length) _
    (fun acc a hb => basicLineStep_min field prims stepLength maxSteps margin
      attractors separationDistance smoothing minLineLength bidirectional
      acc a hb)
    starts ([], grid0) (by intro l hl; cases hl)

lemma hatchTraceOne_min (prims : Prims K) (formNoise densityNoise lengthNoise
    wobbleNoise angleNoise : Noise K) (width height margin stepLength
    formScale formContrast lengthVariation angleVariation wobble : K)
    (maxLines maxSteps minLineLength : Nat)
    (acc : List (FlowLine K) × Int) (seedPoint : Point K)
    (hacc : ∀ l ∈ acc.1, minLineLength ≤ l.points.length) :
    ∀ l ∈ (hatchTraceOne prims formNoise densityNoise lengthNoise
      wobbleNoise angleNoise width height margin stepLength formScale
      formContrast lengthVariation angleVariation wobble maxLines maxSteps
      minLineLength acc seedPoint).1, minLineLength ≤ l.points.length := by
  unfold hatchTraceOne
  dsimp only
  split
  · exact hacc
  · rw [apply_ite Prod.fst]
    dsimp only
    exact mem_emit_ite minLineLength acc.1 _ _ (fun h => h) hacc

lemma generateFormHatching_min (prims : Prims K) (width height : K)
    (maxLines : Nat) (stepLength : K) (maxSteps : Nat) (margin : K)
    (minLineLength : Nat) (seed : Int)
    (formScale formContrast hatchDensity lengthVariation angleVariation
      overlap wobble : K) :
    ∀ l ∈ (generateFormHatching prims width height maxLines stepLength
      maxSteps margin minLineLength seed formScale formContrast hatchDensity
      lengthVariation angleVariation overlap wobble).lines,
      minLineLength ≤ l.points.length := by
  unfold generateFormHatching
  dsimp only
  refine foldl_invariant
    (fun acc => ∀ l ∈ acc.1, minLineLength ≤ l.points.length) _
    (fun acc a hb => hatchTraceOne_min prims _ _ _ _ _ width height margin
      stepLength formScale formContrast lengthVariation angleVariation
      wobble maxLines maxSteps minLineLength acc a hb)
    _ _ ?_
  intro l hl
  exact absurd hl (List.not_mem_nil l)

lemma streamlinesLoop_min (field : FlowField K) (prims : Prims K)
    (maxLines minLineLength : Nat)
    (smoothing baseSeparation spacingVariation : K)
    (traceCfg : TraceConfig K) :
    ∀ (fuel : Nat)
      (st : List (FlowLine K) × List (SeedCandidate K) × SpatialGrid K × Int),
      (∀ l ∈ st.1, minLineLength ≤ l.points.length) →
      ∀ l ∈ (streamlinesLoop field prims maxLines minLineLength smoothing
        baseSeparation spacingVariation traceCfg fuel st).1,
        minLineLength ≤ l.points.length := by
  intro fuel
  induction fuel with
  | zero => intro st h; exact h
  | succ n ih =>
    rintro ⟨lines, queue, grid, s⟩ h
    rw [streamlinesLoop]
    split
    · exact h
    · lift_lets
      extract_lets seedPoint rest effectiveSep densityRel skipCheck sc s1
        line finalLine lines1 grid1 denseSampling sampleInterval seeded
        queue1 s2 shuffled
      split
      · exact ih _ h
      · split
        · exact ih _ h
        · rename_i hshort
          apply ih
          intro l hl
          unfold lines1 at hl
          rcases List.mem_append.mp hl with hm | hm
          · exact h l hm
          · rw [List.mem_singleton.mp hm]
            unfold finalLine
            split
            · exact le_trans (Nat.not_lt.mp hshort) (smoothLine_length _ _)
            · exact Nat.not_lt.mp hshort

lemma generateStreamlines_min (field : FlowField K) (prims : Prims K)
    (width height : K) (maxLines : Nat) (stepLength : K) (maxSteps : Nat)
    (margin : K) (minLineLength : Nat) (baseSeparation smoothing : K)
    (attractors : Option (List (Attractor K))) (seed : Int)
    (densityPoints : List (DensityPoint K))
    (densityVariation densityNoiseScale minSeparation organicWobble : K)
    (velocityFadeout : Bool)
    (edgeAttraction lineFatigue spacingVariation : K) :
    ∀ l ∈ (generateStreamlines field prims width height maxLines stepLength
      maxSteps margin minLineLength baseSeparation smoothing attractors seed
      densityPoints densityVariation densityNoiseScale minSeparation
      organicWobble velocityFadeout edgeAttraction lineFatigue
      spacingVariation).lines, minLineLength ≤ l.points.length := by
  unfold generateStreamlines
  dsimp only
  apply streamlinesLoop_min
  exact fun l hl => absurd hl (List.not_mem_nil l)

lemma swarmTickFrom_lines (field : FlowField K) (prims : Prims K)
    (config : SwarmConfig K) (attractors : Option (List (Attractor K))) :
    ∀ (fuel i : Nat) (st : SwarmState K),
      (∀ l ∈ st.completedLines, config.minLineLength ≤ l.points.length) →
      ∀ l ∈ (swarmTickFrom field prims config attractors fuel i
        st).completedLines, config.minLineLength ≤ l.points.length := by
  intro fuel
  induction fuel with
  | zero => intro i st h; exact h
  | succ n ih =>
    intro i st h
    simp only [swarmTickFrom]
    split
    · split
      · exact ih _ _ h
      · split
        · apply ih
          exact mem_emit_ite _ _ _ _ (fun hc => hc) h
        · split
          · split
            · split
              · exact ih _ _ h
              · exact ih _ _ h
            · exact ih _ _ h
          · exact ih _ _ h
    · exact h

lemma swarmLoop_lines (field : FlowField K) (prims : Prims K)
    (config : SwarmConfig K) (attractors : Option (List (Attractor K))) :
    ∀ (fuel : Nat) (st : SwarmState K),
      (∀ l ∈ st.completedLines, config.minLineLength ≤ l.points.length) →
      ∀ l ∈ (swarmLoop field prims config attractors fuel
        st).completedLines, config.minLineLength ≤ l.points.length := by
  intro fuel
  induction fuel with
  | zero => intro st h; exact h
  | succ n ih =>
    intro st h
    simp only [swarmLoop, swarmTick]
    split
    · exact ih _ (swarmTickFrom_lines field prims config attractors _ 0 st h)
    · exact h

lemma generateSwarmLines_min (field : FlowField K) (prims : Prims K)
    (width height : K) (maxLines : Nat) (stepLength : K) (maxSteps : Nat)
    (margin : K) (minLineLength : Nat) (seed : Int)
    (attractors : Option (List (Attractor K))) (agentCount : Nat)
    (clusterBias childSpawnRate flowInfluence clusterAttraction
      formInfluence voidSize energyVariation : K) :
    ∀ l ∈ (generateSwarmLines field prims width height maxLines stepLength
      maxSteps margin minLineLength seed attractors agentCount clusterBias
      childSpawnRate flowInfluence clusterAttraction formInfluence voidSize
      energyVariation).lines, minLineLength ≤ l.points.length := by
  unfold generateSwarmLines swarmSimulate
  dsimp only
  refine foldl_invariant
    (fun ls : List (FlowLine K) => ∀ l ∈ ls, minLineLength ≤ l.points.length)
    _ ?_ _ _ ?_
  · intro b a hb
    unfold swarmCollectStep
    exact mem_emit_ite _ _ _ _ (fun hc => hc) hb
  · apply swarmLoop_lines
    exact fun l hl => absurd hl (List.not_mem_nil l)

end C3Proof

section C3

variable {K : Type} [LinearOrderedField K] [FloorRing K]

/-- **C3.** Minimum-length guarantee: in every mode (basic, bidirectional,
fill, swarm, form hatching), every line in the result of
`generateFlowLines` has at least `minLineLength` points (default `10`);
lines and agent trails shorter than the bound are discarded at every
emission site. -/
theorem generateFlowLines_minLineLength (prims : Prims K)
    (options : FlowLinesOptions K) (extRandom : Int) :
    ∀ l ∈ (generateFlowLines prims options extRandom).lines,
      options.minLineLength.getD 10 ≤ l.points.length := by
  unfold generateFlowLines
  dsimp only
  split
  · exact generateFormHatching_min prims _ _ _ _ _ _ _ _ _ _ _ _ _ _ _
  · split
    · exact generateSwarmLines_min _ prims _ _ _ _ _ _ _ _ _ _ _ _ _ _ _ _ _
    · split
      · exact generateStreamlines_min _ prims _ _ _ _ _ _ _ _ _ _ _ _ _ _ _
          _ _ _ _ _
      · exact basicLinesLoop_min _ prims _ _ _ _ _ _ _ _ _ _

/-- A small run emitting exactly one line, for evaluating the
minimum-length theorem. -/
def c3Options : FlowLinesOptions ℚ :=
  { width := 100, height := 100, lineCount := 1, seed := some 0,
    maxSteps := some 0, minLineLength := some 1,
    startPoints := some [⟨30, 30⟩] }

theorem generateFlowLines_minLineLength_witness :
    (⟨[⟨30, 30⟩]⟩ : FlowLine ℚ) ∈
        (generateFlowLines qprims c3Options 0).lines ∧
      c3Options.minLineLength.getD 10 ≤
        (⟨[⟨(30 : ℚ), 30⟩]⟩ : FlowLine ℚ).points.length :=
  ⟨by decide, generateFlowLines_minLineLength qprims c3Options 0
    ⟨[⟨30, 30⟩]⟩ (by decide)⟩

end C3

section C5

variable {K : Type} [LinearOrderedField K] [FloorRing K]

/-- The influence of one attractor as the SPEC's words state it (to be
compared with `attractorContribution`, which is translated from the code):
for `0 < dist < radius` the vector `(1 - dist/radius)^2 * strength` times
the unit vector from `(x, y)` toward the attractor, and nothing otherwise. -/
def attractorContributionSpec (prims : Prims K) (x y : K) (a : Attractor K) :
    Point K :=
  let dx := a.x - x
  let dy := a.y - y
  let dist := prims.sqrt (dx * dx + dy * dy)
  if 0 < dist ∧ dist < a.radius then
    let falloff := (1 - dist / a.radius) ^ 2
    ⟨dx / dist * (falloff * a.strength), dy / dist * (falloff * a.strength)⟩
  else ⟨0, 0⟩

/-- `getVector` as the SPEC's words state it: the renormalisation of the
base (nearest-cell, bounds-clamped) vector plus the SUM of the per-attractor
influences. -/
def getVectorSpec (f : FlowField K) (prims : Prims K) (x y : K)
    (attractors : Option (List (Attractor K))) : Point K :=
  match attractors with
  | none => f.getBaseVector x y
  | some l =>
    if l.isEmpty then f.getBaseVector x y
    else
      let base := f.getBaseVector x y
      renormalize prims
        ⟨base.x +
            (l.map (fun a => (attractorContributionSpec prims x y a).x)).sum,
          base.y +
            (l.map (fun a => (attractorContributionSpec prims x y a).y)).sum⟩

lemma attractorContribution_eq_spec (prims : Prims K) (x y : K)
    (a : Attractor K) :
    attractorContribution prims x y a =
      attractorContributionSpec prims x y a := by
  unfold attractorContribution attractorContributionSpec
  dsimp only
  rw [if_congr and_comm rfl rfl]
  split
  · simp only [Point.mk.injEq]
    constructor <;> ring
  · rfl

lemma foldl_add_contribution (c : Attractor K → Point K) :
    ∀ (l : List (Attractor K)) (v : Point K),
      l.foldl (fun (v : Point K) a =>
          ⟨v.x + (c a).x, v.y + (c a).y⟩) v =
        ⟨v.x + (l.map (fun a => (c a).x)).sum,
          v.y + (l.map (fun a => (c a).y)).sum⟩ := by
  intro l
  induction l with
  | nil => intro v; simp
  | cons a t ih =>
    intro v
    simp only [List.foldl_cons, List.map_cons, List.sum_cons, ih,
      Point.mk.injEq]
    constructor <;> ring

lemma getVector_eq_spec (f : FlowField K) (prims : Prims K) (x y : K)
    (attractors : Option (List (Attractor K))) :
    f.getVector prims x y attractors = getVectorSpec f prims x y attractors :=
  by
  unfold FlowField.getVector getVectorSpec
  cases attractors with
  | none => rfl
  | some l =>
    dsimp only
    split
    · rfl
    · rw [foldl_add_contribution (attractorContribution prims x y) l
        (f.getBaseVector x y)]
      simp only [attractorContribution_eq_spec]

/-- **C5.** `getVector` realises the spec's attractor formula: it equals
the renormalisation of the base vector plus the sum over the attractor
list of `(1 - dist/radius)^2 * strength` times the unit vector toward each
attractor within radius (`getVectorSpec`, written from the spec's words);
the summed contributions make the result invariant under permutation of
the attractor list; and an attractor at distance at least `radius`
contributes the zero vector, so the influence vanishes at the radius
boundary. -/
theorem getVector_attractor_formula (f : FlowField K) (prims : Prims K)
    (x y : K) (attractors : Option (List (Attractor K))) :
    f.getVector prims x y attractors = getVectorSpec f prims x y attractors ∧
      (∀ (l l' : List (Attractor K)), l.Perm l' →
        f.getVector prims x y (some l) = f.getVector prims x y (some l')) ∧
      ∀ a : Attractor K,
        a.radius ≤ prims.sqrt ((a.x - x) * (a.x - x) + (a.y - y) * (a.y - y))
        → attractorContribution prims x y a = ⟨0, 0⟩ := by
  refine ⟨getVector_eq_spec f prims x y attractors, ?_, ?_⟩
  · intro l l' hperm
    rw [getVector_eq_spec, getVector_eq_spec]
    unfold getVectorSpec
    dsimp only
    have hlen : l.isEmpty = l'.isEmpty := by
      cases l with
      | nil => rw [hperm.nil_eq]
      | cons a t =>
        cases l' with
        | nil => exact absurd hperm.symm.nil_eq (by simp)
        | cons b u => rfl
    rw [hlen, (hperm.map (fun a => (attractorContributionSpec prims x y
      a).x)).sum_eq, (hperm.map (fun a => (attractorContributionSpec prims
      x y a).y)).sum_eq]
  · intro a h
    unfold attractorContribution
    dsimp only
    rw [if_neg]
    rintro ⟨h1, _⟩
    exact absurd h1 (not_lt.mpr h)

/-- An attractor at distance exactly its radius from the origin under
`qprims` (whose `sqrt` sends everything but `1` to `0`). -/
def c5A : Attractor ℚ := ⟨3, 4, 0, 1⟩

/-- A second attractor for the permutation part. -/
def c5B : Attractor ℚ := ⟨1, 1, 5, 2⟩

theorem getVector_attractor_formula_witness :
    c8Field.getVector qprims 0 0 (some [c5A]) =
        getVectorSpec c8Field qprims 0 0 (some [c5A]) ∧
      c8Field.getVector qprims 0 0 (some [c5A, c5B]) =
          c8Field.getVector qprims 0 0 (some [c5B, c5A]) ∧
        attractorContribution qprims 0 0 c5A = ⟨0, 0⟩ :=
  ⟨(getVector_attractor_formula c8Field qprims 0 0 (some [c5A])).1,
    (getVector_attractor_formula c8Field qprims 0 0 none).2.1
      [c5A, c5B] [c5B, c5A] (List.Perm.swap c5B c5A []),
    (getVector_attractor_formula c8Field qprims 0 0 none).2.2 c5A
      (by simp only [c5A, qprims]; norm_num)⟩

end C5

section C2Proof

variable {K : Type} [LinearOrderedField K] [FloorRing K]

/-- Closed margin box used by the amended containment statement. -/
def inBox (width height margin : K) (p : Point K) : Prop :=
  margin ≤ p.x ∧ p.x ≤ width - margin ∧ margin ≤ p.y ∧ p.y ≤ height - margin

lemma randStep_mem (s : Int) :
    0 ≤ (randStep (K := K) s).1 ∧ (randStep (K := K) s).1 ≤ 1 := by
  unfold randStep lcgNext
  dsimp only
  constructor
  · apply div_nonneg
    · exact_mod_cast Int.emod_nonneg _ (by norm_num)
    · norm_num
  · rw [div_le_one (by norm_num)]
    have h : (s * 1103515245 + 12345) % 2147483648 ≤ 2147483647 := by
      have := Int.emod_lt_of_pos (s * 1103515245 + 12345)
        (b := 2147483648) (by norm_num)
      omega
    exact_mod_cast h

lemma sample_in_interval (margin width r : K) (hw : 2 * margin ≤ width)
    (h0 : 0 ≤ r) (h1 : r ≤ 1) :
    margin ≤ margin + r * (width - 2 * margin) ∧
      margin + r * (width - 2 * margin) ≤ width - margin := by
  constructor
  · nlinarith
  · nlinarith

lemma generateStartPoints_box (width height : K) (count : Nat) (margin : K)
    (seed : Int) (hw : 2 * margin ≤ width) (hh : 2 * margin ≤ height) :
    ∀ p ∈ generateStartPoints width height count margin seed,
      inBox width height margin p := by
  unfold generateStartPoints
  have main : ∀ (l : List Nat) (acc : List (Point K) × Int),
      (∀ p ∈ acc.1, inBox width height margin p) →
      ∀ p ∈ (l.foldl
        (fun (acc : List (Point K) × Int) _ =>
          let rx := randStep (K := K) acc.2
          let ry := randStep (K := K) rx.2
          (acc.1 ++ [⟨margin + rx.1 * (width - 2 * margin),
            margin + ry.1 * (height - 2 * margin)⟩], ry.2))
        acc).1, inBox width height margin p := by
    intro l
    induction l with
    | nil => intro acc h; exact h
    | cons a t ih =>
      intro acc h
      apply ih
      intro p hp
      rcases List.mem_append.mp hp with hm | hm
      · exact h p hm
      · rw [List.mem_singleton.mp hm]
        obtain ⟨hx0, hx1⟩ := randStep_mem (K := K) acc.2
        obtain ⟨hy0, hy1⟩ := randStep_mem (K := K) (randStep (K := K) acc.2).2
        obtain ⟨ha, hb⟩ := sample_in_interval margin width _ hw hx0 hx1
        obtain ⟨hc, hd⟩ := sample_in_interval margin height _ hh hy0 hy1
        exact ⟨ha, hb, hc, hd⟩
  exact main (List.range count) ([], seed) (fun p hp => absurd hp
    (List.not_mem_nil p))

lemma mem_ite_append_forall {α : Type} {c : Prop} [Decidable c]
    {A : List α} {L : α} (P : α → Prop) (hA : ∀ x ∈ A, P x) (hL : P L) :
    ∀ x ∈ (if c then A ++ [L] else A), P x := by
  split
  · intro x hx
    rcases List.mem_append.mp hx with hm | hm
    · exact hA x hm
    · rw [List.mem_singleton.mp hm]
      exact hL
  · exact hA

lemma traceLoopGo_box (field : FlowField K) (prims : Prims K)
    (dirSign stepLength margin : K)
    (attractors : Option (List (Attractor K)))
    (grid : Option (SpatialGrid K)) (sep : K) :
    ∀ (fuel : Nat) (current : Point K),
      ∀ p ∈ traceLoopGo field prims dirSign stepLength margin attractors
        grid sep fuel current,
        inBox field.width field.height margin p := by
  intro fuel
  induction fuel with
  | zero => intro current p hp; cases hp
  | succ n ih =>
    intro current p hp
    simp only [traceLoopGo] at hp
    split at hp
    · cases hp
    · split at hp
      · cases hp
      · rename_i hin _
        rcases List.mem_cons.mp hp with hm | hm
        · rw [Bool.not_eq_false] at hin
          have hb := of_decide_eq_true hin
          rw [hm]
          exact ⟨hb.1, le_of_lt hb.2.1, hb.2.2.1, le_of_lt hb.2.2.2⟩
        · exact ih _ p hm

lemma traceLine_box (field : FlowField K) (prims : Prims K) (start : Point K)
    (stepLength : K) (maxSteps : Nat) (margin : K)
    (attractors : Option (List (Attractor K)))
    (grid : Option (SpatialGrid K)) (sep : K)
    (hstart : inBox field.width field.height margin start) :
    ∀ p ∈ (traceLine field prims start stepLength maxSteps margin attractors
      grid sep).points, inBox field.width field.height margin p := by
  unfold traceLine
  intro p hp
  rcases List.mem_cons.mp hp with hm | hm
  · rw [hm]; exact hstart
  · exact traceLoopGo_box field prims 1 stepLength margin attractors grid sep
      maxSteps start p hm

lemma traceLineBidirectional_box (field : FlowField K) (prims : Prims K)
    (start : Point K) (stepLength : K) (maxSteps : Nat) (margin : K)
    (attractors : Option (List (Attractor K)))
    (grid : Option (SpatialGrid K)) (sep : K)
    (hstart : inBox field.width field.height margin start) :
    ∀ p ∈ (traceLineBidirectional field prims start stepLength maxSteps
      margin attractors grid sep).points,
      inBox field.width field.height margin p := by
  unfold traceLineBidirectional
  intro p hp
  rcases List.mem_append.mp hp with hm | hm
  · exact traceLoopGo_box field prims (-1) stepLength margin attractors grid
      sep maxSteps start p (List.mem_reverse.mp hm)
  · rcases List.mem_cons.mp hm with hm2 | hm2
    · rw [hm2]; exact hstart
    · exact traceLoopGo_box field prims 1 stepLength margin attractors grid
        sep maxSteps start p hm2

lemma chaikinPairs_box (w h m : K) :
    ∀ l : List (Point K), (∀ p ∈ l, inBox w h m p) →
      ∀ p ∈ chaikinPairs l, inBox w h m p
  | [] => by
    intro _ p hp
    simp [chaikinPairs] at hp
  | [p0] => by
    intro _ p hp
    simp [chaikinPairs] at hp
  | p0 :: p1 :: rest => by
    intro hbox p hp
    obtain ⟨h00, h01, h02, h03⟩ := hbox p0 (List.mem_cons_self _ _)
    obtain ⟨h10, h11, h12, h13⟩ := hbox p1
      (List.mem_cons_of_mem _ (List.mem_cons_self _ _))
    rw [chaikinPairs] at hp
    rcases List.mem_cons.mp hp with rfl | hp2
    · exact ⟨by linarith, by linarith, by linarith, by linarith⟩
    · rcases List.mem_cons.mp hp2 with rfl | hp3
      · exact ⟨by linarith, by linarith, by linarith, by linarith⟩
      · exact chaikinPairs_box w h m (p1 :: rest)
          (fun q hq => hbox q (List.mem_cons_of_mem _ hq)) p hp3

lemma chaikinStep_box (w h m : K) (points : List (Point K))
    (hpts : ∀ p ∈ points, inBox w h m p) :
    ∀ p ∈ chaikinStep points, inBox w h m p := by
  cases points with
  | nil => intro p hp; simp [chaikinStep] at hp
  | cons q rest =>
    intro p hp
    rw [chaikinStep] at hp
    rcases List.mem_cons.mp hp with rfl | hp2
    · exact hpts p (List.mem_cons_self _ _)
    · rcases List.mem_append.mp hp2 with hm | hm
      · exact chaikinPairs_box w h m (q :: rest) hpts p hm
      · rw [List.mem_singleton.mp hm,
          getLastI_eq_get (q :: rest) (List.cons_ne_nil q rest)]
        exact hpts _ (List.get_mem _ _ _)

lemma chaikinIter_box (w h m : K) :
    ∀ (n : Nat) (l : List (Point K)), (∀ p ∈ l, inBox w h m p) →
      ∀ p ∈ chaikinIter n l, inBox w h m p := by
  intro n
  induction n with
  | zero => intro l hl; exact hl
  | succ k ih =>
    intro l hl
    exact ih (chaikinStep l) (chaikinStep_box w h m l hl)

lemma smoothLine_box (w h m : K) (points : List (Point K)) (strength : K)
    (hpts : ∀ p ∈ points, inBox w h m p) :
    ∀ p ∈ smoothLine points strength, inBox w h m p := by
  unfold smoothLine
  split
  · exact hpts
  · exact chaikinIter_box w h m _ points hpts

lemma basicLineStep_box (field : FlowField K) (prims : Prims K)
    (stepLength : K) (maxSteps : Nat) (margin : K)
    (attractors : Option (List (Attractor K)))
    (separationDistance smoothing : K) (minLineLength : Nat)
    (bidirectional : Bool)
    (acc : List (FlowLine K) × Option (SpatialGrid K)) (start : Point K)
    (hstart : inBox field.width field.height margin start)
    (hacc : ∀ l ∈ acc.1, ∀ p ∈ l.points,
      inBox field.width field.height margin p) :
    ∀ l ∈ (basicLineStep field prims stepLength maxSteps margin attractors
      separationDistance smoothing minLineLength bidirectional acc start).1,
      ∀ p ∈ l.points, inBox field.width field.height margin p := by
  unfold basicLineStep
  dsimp only
  split
  · exact hacc
  · rw [apply_ite Prod.fst]
    dsimp only
    apply mem_ite_append_forall
    · exact hacc
    · split
      · split
        · exact smoothLine_box field.width field.height margin _ smoothing
            (traceLineBidirectional_box field prims start stepLength
              maxSteps margin attractors acc.2 separationDistance hstart)
        · exact traceLineBidirectional_box field prims start stepLength
            maxSteps margin attractors acc.2 separationDistance hstart
      · split
        · exact smoothLine_box field.width field.height margin _ smoothing
            (traceLine_box field prims start stepLength maxSteps margin
              attractors acc.2 separationDistance hstart)
        · exact traceLine_box field prims start stepLength maxSteps margin
            attractors acc.2 separationDistance hstart

lemma foldl_invariant_mem {α β : Type} (P : β → Prop) (Q : α → Prop)
    (f : β → α → β) (hstep : ∀ b a, Q a → P b → P (f b a)) :
    ∀ (l : List α), (∀ a ∈ l, Q a) → ∀ b, P b → P (l.foldl f b) := by
  intro l
  induction l with
  | nil => intro _ b hb; exact hb
  | cons a t ih =>
    intro hQ b hb
    exact ih (fun x hx => hQ x (List.mem_cons_of_mem a hx)) (f b a)
      (hstep b a (hQ a (List.mem_cons_self a t)) hb)

lemma basicLinesLoop_box (field : FlowField K) (prims : Prims K)
    (stepLength : K) (maxSteps : Nat) (margin : K)
    (attractors : Option (List (Attractor K)))
    (separationDistance smoothing : K) (minLineLength : Nat)
    (bidirectional : Bool) (starts : List (Point K))
    (grid0 : Option (SpatialGrid K))
    (hstarts : ∀ q ∈ starts, inBox field.width field.height margin q) :
    ∀ l ∈ (basicLinesLoop field prims stepLength maxSteps margin attractors
      separationDistance smoothing minLineLength bidirectional starts
      grid0).1, ∀ p ∈ l.points, inBox field.width field.height margin p := by
  unfold basicLinesLoop
  exact foldl_invariant_mem
    (fun acc : List (FlowLine K) × Option (SpatialGrid K) =>
      ∀ l ∈ acc.1, ∀ p ∈ l.points, inBox field.width field.height margin p)
    (fun q => inBox field.width field.height margin q) _
    (fun acc a hQ hb => basicLineStep_box field prims stepLength maxSteps
      margin attractors separationDistance smoothing minLineLength
      bidirectional acc a hQ hb)
    starts hstarts ([], grid0) (fun l hl => absurd hl (List.not_mem_nil l))

lemma hatchSeedsLoop_box (prims : Prims K) (densityNoise : Noise K)
    (width height margin formScale formContrast : K) (maxLines : Nat)
    (hw : 2 * margin ≤ width) (hh : 2 * margin ≤ height) :
    ∀ (fuel : Nat) (st : List (Point K) × Int),
      (∀ p ∈ st.1, inBox width height margin p) →
      ∀ p ∈ (hatchSeedsLoop prims densityNoise width height margin formScale
        formContrast maxLines fuel st).1, inBox width height margin p := by
  intro fuel
  induction fuel with
  | zero => intro st h; exact h
  | succ n ih =>
    rintro ⟨seeds, s⟩ h
    simp only [hatchSeedsLoop]
    split
    · exact h
    · split
      · apply ih
        intro p hp
        rcases List.mem_append.mp hp with hm | hm
        · exact h p hm
        · rw [List.mem_singleton.mp hm]
          obtain ⟨hx0, hx1⟩ := randStep_mem (K := K) s
          obtain ⟨hy0, hy1⟩ := randStep_mem (K := K) (randStep (K := K) s).2
          obtain ⟨ha, hb⟩ := sample_in_interval margin width _ hw hx0 hx1
          obtain ⟨hc, hd⟩ := sample_in_interval margin height _ hh hy0 hy1
          exact ⟨ha, hb, hc, hd⟩
      · exact ih _ h

set_option maxHeartbeats 2000000 in
lemma hatchTraceGo_box (prims : Prims K) (formNoise densityNoise wobbleNoise
    angleNoise : Noise K) (width height margin stepLength formScale
    formContrast angleVariation wobble : K) :
    ∀ (fuel step : Nat) (st : K × K × List (Point K) × Int),
      (∀ p ∈ st.2.2.1, inBox width height margin p) →
      ∀ p ∈ (hatchTraceGo prims formNoise densityNoise wobbleNoise
        angleNoise width height margin stepLength formScale formContrast
        angleVariation wobble fuel step st).2.2.1,
        inBox width height margin p := by
  intro fuel
  induction fuel with
  | zero => intro step st h; exact h
  | succ n ih =>
    rintro step ⟨x, y, trail, s⟩ h
    simp only [hatchTraceGo]
    split
    · exact h
    · rename_i hrej
      push_neg at hrej
      split
      · split
        · intro p hp
          rcases List.mem_append.mp hp with hm | hm
          · exact h p hm
          · rw [List.mem_singleton.mp hm]
            exact ⟨hrej.1, hrej.2.1, hrej.2.2.1, hrej.2.2.2⟩
        · apply ih
          intro p hp
          rcases List.mem_append.mp hp with hm | hm
          · exact h p hm
          · rw [List.mem_singleton.mp hm]
            exact ⟨hrej.1, hrej.2.1, hrej.2.2.1, hrej.2.2.2⟩
      · apply ih
        intro p hp
        rcases List.mem_append.mp hp with hm | hm
        · exact h p hm
        · rw [List.mem_singleton.mp hm]
          exact ⟨hrej.1, hrej.2.1, hrej.2.2.1, hrej.2.2.2⟩

lemma hatchTraceOne_box (prims : Prims K) (formNoise densityNoise
    lengthNoise wobbleNoise angleNoise : Noise K) (width height margin
    stepLength formScale formContrast lengthVariation angleVariation
    wobble : K) (maxLines maxSteps minLineLength : Nat)
    (acc : List (FlowLine K) × Int) (seedPoint : Point K)
    (hseed : inBox width height margin seedPoint)
    (hacc : ∀ l ∈ acc.1, ∀ p ∈ l.points, inBox width height margin p) :
    ∀ l ∈ (hatchTraceOne prims formNoise densityNoise lengthNoise
      wobbleNoise angleNoise width height margin stepLength formScale
      formContrast lengthVariation angleVariation wobble maxLines maxSteps
      minLineLength acc seedPoint).1,
      ∀ p ∈ l.points, inBox width height margin p := by
  unfold hatchTraceOne
  dsimp only
  split
  · exact hacc
  · rw [apply_ite Prod.fst]
    dsimp only
    apply mem_ite_append_forall
    · exact hacc
    · apply hatchTraceGo_box
      intro p hp
      rw [List.mem_singleton.mp hp]
      exact hseed

lemma generateFormHatching_box (prims : Prims K) (width height : K)
    (maxLines : Nat) (stepLength : K) (maxSteps : Nat) (margin : K)
    (minLineLength : Nat) (seed : Int)
    (formScale formContrast hatchDensity lengthVariation angleVariation
      overlap wobble : K) (hw : 2 * margin ≤ width)
    (hh : 2 * margin ≤ height) :
    ∀ l ∈ (generateFormHatching prims width height maxLines stepLength
      maxSteps margin minLineLength seed formScale formContrast hatchDensity
      lengthVariation angleVariation overlap wobble).lines,
      ∀ p ∈ l.points, inBox width height margin p := by
  unfold generateFormHatching
  dsimp only
  refine foldl_invariant_mem
    (fun acc : List (FlowLine K) × Int =>
      ∀ l ∈ acc.1, ∀ p ∈ l.points, inBox width height margin p)
    (fun q => inBox width height margin q) _
    (fun acc a hQ hb => hatchTraceOne_box prims _ _ _ _ _ width height
      margin stepLength formScale formContrast lengthVariation
      angleVariation wobble maxLines maxSteps minLineLength acc a hQ hb)
    _ ?_ _ (fun l hl => absurd hl (List.not_mem_nil l))
  exact hatchSeedsLoop_box prims _ width height margin formScale
    formContrast maxLines hw hh _ _ (fun p hp => absurd hp
    (List.not_mem_nil p))

end C2Proof

section C2

variable {K : Type} [LinearOrderedField K] [FloorRing K]

/-- A basic-mode run whose caller-supplied start point `(0, 0)` lies far
outside the margin box yet is returned in the output (margin 20 on a
100 x 100 canvas). -/
def c2Options : FlowLinesOptions ℚ :=
  { width := 100, height := 100, lineCount := 1, seed := some 0,
    margin := some 20, maxSteps := some 0, minLineLength := some 1,
    startPoints := some [⟨0, 0⟩] }

/-- **C2, counterexample.** A generation run whose result contains a point
violating `margin ≤ x < width - margin ∧ margin ≤ y < height - margin`:
caller-supplied start points enter the traced line without any bounds
test. -/
theorem margin_containment_counterexample :
    ∃ l ∈ (generateFlowLines qprims c2Options 0).lines, ∃ p ∈ l.points,
      ¬ (c2Options.margin.getD 20 ≤ p.x ∧
        p.x < c2Options.width - c2Options.margin.getD 20 ∧
        c2Options.margin.getD 20 ≤ p.y ∧
        p.y < c2Options.height - c2Options.margin.getD 20) := by
  have hres : (generateFlowLines qprims c2Options 0).lines = [⟨[⟨0, 0⟩]⟩] :=
    by decide
  refine ⟨⟨[⟨0, 0⟩]⟩, by rw [hres]; exact List.mem_singleton.mpr rfl,
    ⟨0, 0⟩, List.mem_singleton.mpr rfl, ?_⟩
  decide

/-- **C2, amended.** Margin containment as the code actually guarantees it:
in basic/bidirectional mode with program-generated start points (no caller
`startPoints`, no Poisson distribution, no smoothing) and in form-hatching
mode, every point of every emitted line lies in the CLOSED margin box
`margin ≤ x ≤ width - margin ∧ margin ≤ y ≤ height - margin` (smoothing is
covered: Chaikin corner cutting emits convex combinations of in-box
points).  The start and hatch points can land exactly on the upper
boundary, so the spec's strict upper bound is weakened to closed; swarm
mode and fill mode are excluded: a swarm trail keeps the out-of-bounds
point computed in its final step, and fill mode enqueues caller-supplied
density-point centers with no bounds test. -/
theorem generateFlowLines_margin_containment (prims : Prims K)
    (options : FlowLinesOptions K) (extRandom : Int)
    (hsw : options.swarmMode = none) (hfill : options.fillMode = none)
    (hsp : options.startPoints = none)
    (hev : options.evenDistribution = none)
    (hw : 2 * options.margin.getD 20 ≤ options.width)
    (hh : 2 * options.margin.getD 20 ≤ options.height) :
    ∀ l ∈ (generateFlowLines prims options extRandom).lines, ∀ p ∈ l.points,
      inBox options.width options.height (options.margin.getD 20) p := by
  unfold generateFlowLines
  dsimp only
  split
  · exact generateFormHatching_box prims _ _ _ _ _ _ _ _ _ _ _ _ _ _ _
      hw hh
  · split
    · rename_i hcond
      rw [hsw] at hcond
      simp at hcond
    · split
      · rename_i hcond
        rw [hfill] at hcond
        simp at hcond
      · simp only [hsp, hev, Option.getD_none, reduceIte]
        exact basicLinesLoop_box _ prims _ _ _ _ _ _ _ _ _ _
          (generateStartPoints_box _ _ _ _ _ hw hh)

/-- A default-settings configuration (with smoothing enabled) for
evaluating the amended containment theorem. -/
def c2BoxOptions : FlowLinesOptions ℚ :=
  { width := 100, height := 100, lineCount := 1, seed := some 7,
    smoothing := some (1/2) }

theorem generateFlowLines_margin_containment_witness :
    (c2BoxOptions.swarmMode = none ∧ c2BoxOptions.fillMode = none ∧
      c2BoxOptions.startPoints = none ∧
      c2BoxOptions.evenDistribution = none ∧
      2 * c2BoxOptions.margin.getD 20 ≤ c2BoxOptions.width ∧
      2 * c2BoxOptions.margin.getD 20 ≤ c2BoxOptions.height) ∧
      ∀ l ∈ (generateFlowLines qprims c2BoxOptions 0).lines, ∀ p ∈ l.points,
        inBox c2BoxOptions.width c2BoxOptions.height
          (c2BoxOptions.margin.getD 20) p :=
  ⟨⟨rfl, rfl, rfl, rfl, by norm_num [c2BoxOptions],
      by norm_num [c2BoxOptions]⟩,
    generateFlowLines_margin_containment qprims c2BoxOptions 0 rfl rfl rfl
      rfl (by norm_num [c2BoxOptions]) (by norm_num [c2BoxOptions])⟩

end C2

end Flow
